import Mathlib

/-!
Verification of the Privox end-to-end-encrypted messaging layer.

The development shallowly embeds the repository's crypto module
(`src/lib/crypto.ts`) and its conversation-lifecycle logic
(`src/app/page.tsx`, the chat interface component) into Lean.

Modelling conventions:
- Byte buffers (`ArrayBuffer`/`Uint8Array`) are `List Nat` with every entry
  below 256.
- JavaScript strings are Lean `String`s (sequences of Unicode scalar values).
- The platform Web APIs that the repository calls but does not define
  (`window.btoa`/`window.atob`, `TextEncoder`/`TextDecoder`) are implemented
  concretely: base64 and UTF-8 are fully specified codecs.
- The Web Crypto primitives (`crypto.subtle` AES-GCM and RSA-OAEP) are
  external to the repository and are modelled as structures carrying the
  primitive operations together with their documented interface contract
  (authenticated-decryption inverts encryption; ciphertexts are byte
  buffers).  Concrete toy instances witness that the contracts are
  satisfiable.
- A JavaScript function that can throw is modelled with `Except Unit`;
  `Except.error ()` marks a thrown exception, `Except.ok` a normal return.
- The Firebase Realtime Database is a record of association-list stores, and
  a multi-path `update()` call is a single batch (a list of typed path
  updates) applied atomically by `applyBatch`.
-/

set_option autoImplicit false

namespace Privox

/-! ### Association lists (string-keyed objects / database nodes) -/

/-- String-keyed association list, modelling a JavaScript object or a
Realtime Database node whose children are indexed by string keys. -/
abbrev AList (α : Type) := List (String × α)

/-- Look up a key, returning the first binding. -/
def alget {α : Type} : AList α → String → Option α
  | [], _ => none
  | (k, v) :: t, k' => if k = k' then some v else alget t k'

/-- Set a key to a value, replacing an existing binding in place. -/
def alset {α : Type} : AList α → String → α → AList α
  | [], k, v => [(k, v)]
  | (k', v') :: t, k, v => if k' = k then (k, v) :: t else (k', v') :: alset t k v

/-- Remove every binding of a key (a Realtime Database write of `null`). -/
def alremove {α : Type} : AList α → String → AList α
  | [], _ => []
  | (k', v') :: t, k => if k' = k then alremove t k else (k', v') :: alremove t k

/-- Read a two-level path `m/k1/k2`. -/
def subGet {α : Type} (m : AList (AList α)) (k1 k2 : String) : Option α :=
  (alget m k1).bind (fun sub => alget sub k2)

/-- Write a two-level path `m/k1/k2 = v`, creating the intermediate node. -/
def subSet {α : Type} (m : AList (AList α)) (k1 k2 : String) (v : α) :
    AList (AList α) :=
  alset m k1 (alset ((alget m k1).getD []) k2 v)

/-- Delete a two-level path `m/k1/k2` (write of `null`). -/
def subRemove {α : Type} (m : AList (AList α)) (k1 k2 : String) :
    AList (AList α) :=
  match alget m k1 with
  | some sub => alset m k1 (alremove sub k2)
  | none => m

/-! ### Base64 (`window.btoa` / `window.atob`, via the repository's
`arrayBufferToBase64` / `base64ToArrayBuffer` helpers) -/

/-- The 64-character base64 alphabet. -/
def b64Alphabet : List Char :=
  "ABCDEFGHIJKLMNOPQRSTUVWXYZabcdefghijklmnopqrstuvwxyz0123456789+/".data

/-- Character for a sextet value. -/
def b64Char (n : Nat) : Char := b64Alphabet.getD n 'A'

/-- Sextet value of a character; `none` for a character outside the
alphabet (which makes `atob` throw `InvalidCharacterError`). -/
def b64Val (c : Char) : Option Nat := b64Alphabet.indexOf? c

/-- Base64-encode a byte sequence, three bytes to four characters, padding
the final group with `=` exactly as `btoa` does. -/
def b64EncodeBytes : List Nat → List Char
  | [] => []
  | [a] => [b64Char (a / 4), b64Char (a % 4 * 16), '=', '=']
  | [a, b] => [b64Char (a / 4), b64Char (a % 4 * 16 + b / 16),
               b64Char (b % 16 * 4), '=']
  | a :: b :: c :: rest =>
      b64Char (a / 4) :: b64Char (a % 4 * 16 + b / 16) ::
      b64Char (b % 16 * 4 + c / 64) :: b64Char (c % 64) :: b64EncodeBytes rest

/-- Base64-decode; `none` models `atob` throwing on malformed input. -/
def b64DecodeBytes : List Char → Option (List Nat)
  | [] => some []
  | [c1, c2] => do
      let v1 ← b64Val c1
      let v2 ← b64Val c2
      pure [v1 * 4 + v2 / 16]
  | [c1, c2, c3] => do
      let v1 ← b64Val c1
      let v2 ← b64Val c2
      let v3 ← b64Val c3
      pure [v1 * 4 + v2 / 16, v2 % 16 * 16 + v3 / 4]
  | c1 :: c2 :: c3 :: c4 :: rest =>
      if c3 = '=' ∧ c4 = '=' ∧ rest = [] then do
        let v1 ← b64Val c1
        let v2 ← b64Val c2
        pure [v1 * 4 + v2 / 16]
      else if c4 = '=' ∧ rest = [] then do
        let v1 ← b64Val c1
        let v2 ← b64Val c2
        let v3 ← b64Val c3
        pure [v1 * 4 + v2 / 16, v2 % 16 * 16 + v3 / 4]
      else do
        let v1 ← b64Val c1
        let v2 ← b64Val c2
        let v3 ← b64Val c3
        let v4 ← b64Val c4
        let tail ← b64DecodeBytes rest
        pure ((v1 * 4 + v2 / 16) :: (v2 % 16 * 16 + v3 / 4) ::
              (v3 % 4 * 64 + v4) :: tail)
  | _ => none

/-- The repository's `arrayBufferToBase64`: build the binary string of the
buffer's bytes and `btoa` it. -/
def arrayBufferToBase64 (buffer : List Nat) : String :=
  String.mk (b64EncodeBytes buffer)

/-- The repository's `base64ToArrayBuffer`: `atob` then read the code units
back into a byte buffer.  `none` models the `InvalidCharacterError` that
`atob` throws on malformed base64. -/
def base64ToArrayBuffer (base64 : String) : Option (List Nat) :=
  b64DecodeBytes base64.data

/-! ### UTF-8 (`TextEncoder` / `TextDecoder`) -/

/-- UTF-8 encoding of one Unicode scalar value. -/
def utf8EncodeChar (n : Nat) : List Nat :=
  if n < 128 then [n]
  else if n < 2048 then [192 + n / 64, 128 + n % 64]
  else if n < 65536 then [224 + n / 4096, 128 + n / 64 % 64, 128 + n % 64]
  else [240 + n / 262144, 128 + n / 4096 % 64, 128 + n / 64 % 64, 128 + n % 64]

/-- UTF-8 encoding of a character sequence. -/
def utf8EncodeList : List Char → List Nat
  | [] => []
  | c :: cs => utf8EncodeChar c.toNat ++ utf8EncodeList cs

/-- The `TextEncoder().encode(text)` call of `encryptMessage`. -/
def utf8Encode (s : String) : List Nat := utf8EncodeList s.data

/-- Whether a byte is a UTF-8 continuation byte. -/
def isCont (b : Nat) : Bool := 128 ≤ b && b < 192

/-- Guarded scalar-value constructor used by the lossy decoder: an
out-of-range or surrogate code point becomes U+FFFD. -/
def charFromCp (lo cp : Nat) : Char :=
  if lo ≤ cp ∧ (cp < 55296 ∨ (57344 ≤ cp ∧ cp < 1114112)) then Char.ofNat cp
  else '�'

/-- Decoded character of a two-byte sequence (replacement on a malformed
continuation byte). -/
def utf8Cont2 (b b1 : Nat) : Char :=
  if isCont b1 then charFromCp 128 ((b - 192) * 64 + (b1 - 128)) else '�'

/-- Decoded character of a three-byte sequence. -/
def utf8Cont3 (b b1 b2 : Nat) : Char :=
  if isCont b1 && isCont b2 then
    charFromCp 2048 ((b - 224) * 4096 + (b1 - 128) * 64 + (b2 - 128))
  else '�'

/-- Decoded character of a four-byte sequence. -/
def utf8Cont4 (b b1 b2 b3 : Nat) : Char :=
  if isCont b1 && isCont b2 && isCont b3 then
    charFromCp 65536
      ((b - 240) * 262144 + (b1 - 128) * 4096 + (b2 - 128) * 64 + (b3 - 128))
  else '�'

/-- Head byte of a buffer, `0` past the end. -/
def headByte (l : List Nat) : Nat := l.headD 0

/-- Lossy UTF-8 decoding as performed by `TextDecoder().decode`: malformed
sequences become U+FFFD replacement characters instead of failing.  (On
malformed input this model consumes the whole attempted sequence for one
replacement character; only its behaviour on well-formed encoder output
matters to the theorems below.) -/
def utf8DecodeLossy : List Nat → List Char
  | [] => []
  | b :: rest =>
      if b < 128 then Char.ofNat b :: utf8DecodeLossy rest
      else if b < 192 then '�' :: utf8DecodeLossy rest
      else if b < 224 then
        utf8Cont2 b (headByte rest) :: utf8DecodeLossy (rest.drop 1)
      else if b < 240 then
        utf8Cont3 b (headByte rest) (headByte (rest.drop 1)) ::
          utf8DecodeLossy (rest.drop 2)
      else
        utf8Cont4 b (headByte rest) (headByte (rest.drop 1))
          (headByte (rest.drop 2)) :: utf8DecodeLossy (rest.drop 3)
termination_by l => l.length
decreasing_by all_goals simp [List.length_drop] <;> omega

/-- The `TextDecoder().decode` call of `decryptMessage`. -/
def utf8Decode (bs : List Nat) : String := String.mk (utf8DecodeLossy bs)

/-! ### Web Crypto primitives (external interface boundary)

`crypto.subtle` is a platform API, external to the repository, so the two
primitives the repository uses are modelled as structures carrying the
operations together with the contract the Web Crypto specification
guarantees at this boundary. -/

/-- The AES-GCM authenticated cipher of `crypto.subtle.encrypt` /
`crypto.subtle.decrypt`.  Keys, IVs, plaintexts and ciphertexts are byte
buffers; decryption is fallible (`none` models the `OperationError` thrown
on an authentication failure). -/
structure AESGCM where
  enc : List Nat → List Nat → List Nat → List Nat
  dec : List Nat → List Nat → List Nat → Option (List Nat)
  dec_enc : ∀ key iv m, dec key iv (enc key iv m) = some m
  enc_bytes : ∀ key iv m, (∀ b ∈ m, b < 256) → ∀ b ∈ enc key iv m, b < 256

/-- The RSA-OAEP key-wrapping primitive of `crypto.subtle.wrapKey` /
`crypto.subtle.unwrapKey`, together with key generation
(`generateMasterKeyPair`) and key (de)serialization (`importKey`).
`wrap` takes explicit randomness (OAEP is randomized); `unwrap` is
fallible (`none` models the `OperationError` thrown when the ciphertext
was not produced for the matching public key). -/
structure RSAOAEP where
  PubKey : Type
  PrivKey : Type
  Rand : Type
  KeyGenSeed : Type
  generateMasterKeyPair : KeyGenSeed → PubKey × PrivKey
  keypair : PubKey → PrivKey → Prop
  wrap : PubKey → Rand → List Nat → List Nat
  unwrap : PrivKey → List Nat → Option (List Nat)
  importPub : List Nat → Option PubKey
  importPriv : List Nat → Option PrivKey
  generate_keypair : ∀ s, keypair (generateMasterKeyPair s).1 (generateMasterKeyPair s).2
  unwrap_wrap : ∀ pub priv r k, keypair pub priv → unwrap priv (wrap pub r k) = some k
  wrap_bytes : ∀ pub r k, (∀ b ∈ k, b < 256) → ∀ b ∈ wrap pub r k, b < 256

/-! ### The repository's crypto module (`src/lib/crypto.ts`) -/

/-- The `wrapChatKey` function: RSA-OAEP-encrypt the raw chat-key bytes
under the recipient's public key and base64 the result. -/
def wrapChatKey (rsa : RSAOAEP) (chatKey : List Nat) (publicKey : rsa.PubKey)
    (r : rsa.Rand) : String :=
  arrayBufferToBase64 (rsa.wrap publicKey r chatKey)

/-- The `unwrapChatKey` function: base64-decode then RSA-OAEP-decrypt with
the private key.  `Except.error ()` models a thrown exception (either
`atob` on malformed base64 or `unwrapKey` on a key mismatch); no part of
the function catches. -/
def unwrapChatKey (rsa : RSAOAEP) (wrappedKeyB64 : String)
    (privateKey : rsa.PrivKey) : Except Unit (List Nat) :=
  match base64ToArrayBuffer wrappedKeyB64 with
  | none => .error ()
  | some wrappedKeyBuffer =>
    match rsa.unwrap privateKey wrappedKeyBuffer with
    | some k => .ok k
    | none => .error ()

/-- Result record of `encryptMessage` (`{ iv, encrypted }`). -/
structure EncryptedPayload where
  iv : String
  encrypted : String
deriving DecidableEq

/-- The `encryptMessage` function: UTF-8-encode the text, AES-GCM-encrypt
it under the fresh 96-bit IV (the randomness of
`crypto.getRandomValues(new Uint8Array(12))` is the explicit `iv`
argument), and base64 both the IV and the ciphertext. -/
def encryptMessage (aes : AESGCM) (text : String) (key iv : List Nat) :
    EncryptedPayload :=
  let encodedText := utf8Encode text
  let encryptedData := aes.enc key iv encodedText
  { iv := arrayBufferToBase64 iv, encrypted := arrayBufferToBase64 encryptedData }

/-- Sentinel returned by `decryptMessage` when authenticated decryption
fails. -/
def decryptFailureSentinel : String := "Could not decrypt message."

/-- The `decryptMessage` function.  Both base64 decodes happen before the
`try` block, so a malformed-base64 input makes the function throw
(`Except.error ()`); an AES-GCM authentication failure is caught and
converted to the sentinel string. -/
def decryptMessage (aes : AESGCM) (encryptedB64 ivB64 : String)
    (key : List Nat) : Except Unit String :=
  match base64ToArrayBuffer ivB64 with
  | none => .error ()
  | some ivBuffer =>
    match base64ToArrayBuffer encryptedB64 with
    | none => .error ()
    | some encryptedBuffer =>
      match aes.dec key ivBuffer encryptedBuffer with
      | some decrypted => .ok (utf8Decode decrypted)
      | none => .ok decryptFailureSentinel

/-- The localStorage key scheme of `getPrivateKeyLocalStorageKey`. -/
def getPrivateKeyLocalStorageKey (uid : String) : String :=
  "privox_privateKey_" ++ uid

/-- The `getStoredPrivateKey` function over an explicit localStorage map.
Returns the loaded key (or `none`) together with the possibly-purged
store.  The base64 decode happens before the `try` block, so a stored
value that is not valid base64 makes the function throw
(`Except.error ()`); a deserialization (`importKey`) failure is caught,
purges the entry and returns `none` — the same `none` that a missing
entry returns. -/
def getStoredPrivateKey (rsa : RSAOAEP) (store : AList String) (uid : String) :
    Except Unit (Option rsa.PrivKey × AList String) :=
  match alget store (getPrivateKeyLocalStorageKey uid) with
  | none => .ok (none, store)
  | some keyB64 =>
    match base64ToArrayBuffer keyB64 with
    | none => .error ()
    | some keyBuffer =>
      match rsa.importPriv keyBuffer with
      | some key => .ok (some key, store)
      | none => .ok (none, alremove store (getPrivateKeyLocalStorageKey uid))

/-- The `importPublicKeyFromBase64` function (fallible: either the base64
decode or the SPKI import can throw; both are modelled by `none`). -/
def importPublicKeyFromBase64 (rsa : RSAOAEP) (keyB64 : String) :
    Option rsa.PubKey :=
  (base64ToArrayBuffer keyB64).bind rsa.importPub

/-! ### The Realtime Database state (`src/app/page.tsx` data model) -/

/-- Denormalized display data (`participantInfo` entries). -/
structure ParticipantInfo where
  displayName : Option String
  photoURL : Option String
deriving DecidableEq

/-- A `chats/{chatId}` record. -/
structure Chat where
  participants : AList Bool
  participantInfo : Option (AList ParticipantInfo)
  keys : AList String
  lastMessage : Option String
  timestamp : Nat
  createdBy : String
deriving DecidableEq

/-- A `messages/{chatId}/{messageId}` record. -/
structure MessageRecord where
  uid : String
  displayName : Option String
  photoURL : Option String
  encryptedText : String
  iv : String
  timestamp : Nat
deriving DecidableEq

/-- A `users/{uid}` record. -/
structure UserRecord where
  uid : String
  displayName : Option String
  photoURL : Option String
  publicKey : Option String
deriving DecidableEq

/-- The Realtime Database paths the conversation lifecycle touches.
`blocked` flattens `users/{uid}/blocked/{other}` to a per-user map of its
own. -/
structure DB where
  users : AList UserRecord
  chats : AList Chat
  messages : AList (AList MessageRecord)
  userChats : AList (AList Bool)
  invites : AList (AList Bool)
  blocked : AList (AList Bool)
  clearedChats : AList (AList Nat)
deriving DecidableEq

/-- One path update inside a multi-path `update()` call (value `none`
writes `null`, i.e. deletes). -/
inductive Upd
  | chatCreate (cid : String) (c : Chat)
  | chatDelete (cid : String)
  | chatParticipantRemove (cid uid : String)
  | chatKeyRemove (cid uid : String)
  | chatParticipantInfo (cid : String) (info : AList ParticipantInfo)
  | chatLastMessage (cid : String) (s : String)
  | chatTimestamp (cid : String) (t : Nat)
  | messagePut (cid mid : String) (m : MessageRecord)
  | messagesDelete (cid : String)
  | userChat (uid cid : String) (v : Option Bool)
  | invite (uid cid : String) (v : Option Bool)
  | cleared (uid cid : String) (v : Option Nat)
deriving DecidableEq

/-- Modify the chat record at `cid` in place (a write beneath
`chats/{cid}`); a write beneath a nonexistent record is dropped. -/
def modifyChat (db : DB) (cid : String) (f : Chat → Chat) : DB :=
  match alget db.chats cid with
  | some c => { db with chats := alset db.chats cid (f c) }
  | none => db

/-- Apply one path update. -/
def applyUpd (db : DB) : Upd → DB
  | .chatCreate cid c => { db with chats := alset db.chats cid c }
  | .chatDelete cid => { db with chats := alremove db.chats cid }
  | .chatParticipantRemove cid uid =>
      modifyChat db cid (fun c => { c with participants := alremove c.participants uid })
  | .chatKeyRemove cid uid =>
      modifyChat db cid (fun c => { c with keys := alremove c.keys uid })
  | .chatParticipantInfo cid info =>
      modifyChat db cid (fun c => { c with participantInfo := some info })
  | .chatLastMessage cid s =>
      modifyChat db cid (fun c => { c with lastMessage := some s })
  | .chatTimestamp cid t =>
      modifyChat db cid (fun c => { c with timestamp := t })
  | .messagePut cid mid m => { db with messages := subSet db.messages cid mid m }
  | .messagesDelete cid => { db with messages := alremove db.messages cid }
  | .userChat uid cid v =>
      match v with
      | some b => { db with userChats := subSet db.userChats uid cid b }
      | none => { db with userChats := subRemove db.userChats uid cid }
  | .invite uid cid v =>
      match v with
      | some b => { db with invites := subSet db.invites uid cid b }
      | none => { db with invites := subRemove db.invites uid cid }
  | .cleared uid cid v =>
      match v with
      | some t => { db with clearedChats := subSet db.clearedChats uid cid t }
      | none => { db with clearedChats := subRemove db.clearedChats uid cid }

/-- Merge semantics of a multi-path batch: apply every path update.  This
is the success path of the SDK's `update()`; the validation the SDK runs
first is `batchConflict` below, and `update` combines the two.  Call
sites whose batches provably never contain ancestor-related paths (see
the conflict-freeness theorems below) are expressed with `applyBatch`
directly. -/
def applyBatch (db : DB) (batch : List Upd) : DB := batch.foldl applyUpd db

/-- The database path a single update writes, as its list of segments. -/
def Upd.path : Upd → List String
  | .chatCreate cid _ => ["chats", cid]
  | .chatDelete cid => ["chats", cid]
  | .chatParticipantRemove cid uid => ["chats", cid, "participants", uid]
  | .chatKeyRemove cid uid => ["chats", cid, "keys", uid]
  | .chatParticipantInfo cid _ => ["chats", cid, "participantInfo"]
  | .chatLastMessage cid _ => ["chats", cid, "lastMessage"]
  | .chatTimestamp cid _ => ["chats", cid, "timestamp"]
  | .messagePut cid mid _ => ["messages", cid, mid]
  | .messagesDelete cid => ["messages", cid]
  | .userChat uid cid _ => ["user-chats", uid, cid]
  | .invite uid cid _ => ["invites", uid, cid]
  | .cleared uid cid _ => ["cleared-chats", uid, cid]

/-- Whether path `p` lies at or above path `q` (segmentwise prefix). -/
def pathBelow : List String → List String → Bool
  | [], _ => true
  | _ :: _, [] => false
  | a :: as, b :: bs => a = b && pathBelow as bs

/-- Whether `p` is a strict ancestor of `q`.  (Two equal paths cannot
occur in a real `update()` call: the JavaScript object literal that
carries the batch has unique keys, so a repeated path in the list model
is one and the same object entry.) -/
def pathStrictBelow (p q : List String) : Bool :=
  pathBelow p q && !(pathBelow q p)

/-- The Firebase SDK's client-side validation of a multi-path `update()`:
the call is rejected when one written path is a strict ancestor of
another. -/
def batchConflict (batch : List Upd) : Bool :=
  batch.any (fun u => batch.any (fun v => pathStrictBelow u.path v.path))

/-- The SDK's `update()` entry point: validate the batch, then apply it
atomically.  `Except.error ()` models the thrown validation error
(nothing at all is written). -/
def update (db : DB) (batch : List Upd) : Except Unit DB :=
  if batchConflict batch then .error () else .ok (applyBatch db batch)

/-- Observational equivalence of two database states: every path reads the
same value. -/
def DB.Equiv (a b : DB) : Prop :=
  (∀ k, alget a.users k = alget b.users k) ∧
  (∀ k, alget a.chats k = alget b.chats k) ∧
  (∀ k1 k2, subGet a.messages k1 k2 = subGet b.messages k1 k2) ∧
  (∀ k1 k2, subGet a.userChats k1 k2 = subGet b.userChats k1 k2) ∧
  (∀ k1 k2, subGet a.invites k1 k2 = subGet b.invites k1 k2) ∧
  (∀ k1 k2, subGet a.blocked k1 k2 = subGet b.blocked k1 k2) ∧
  (∀ k1 k2, subGet a.clearedChats k1 k2 = subGet b.clearedChats k1 k2)

/-! ### Invite resolution (the `invites/{uid}` listener of `page.tsx`) -/

/-- Resolution of one pending invite `(uid, cid)`, the body the invites
listener runs per invite signal: if the conversation exists and its
authoritative `participants` contains `uid` (truthily), durably record
membership in `user-chats` and delete the invite in one `update()` batch;
otherwise delete the invite without recording membership. -/
def resolveInvite (uid cid : String) (db : DB) : DB :=
  match alget db.chats cid with
  | some chat =>
      if alget chat.participants uid = some true then
        applyBatch db [.userChat uid cid (some true), .invite uid cid none]
      else
        applyBatch db [.invite uid cid none]
  | none => applyBatch db [.invite uid cid none]

/-! ### Clearing history (`handleClearChatHistory`) -/

/-- Clearing writes only the per-user marker
`cleared-chats/{uid}/{chatId} = serverTimestamp()` (the server time is the
explicit `now` argument). -/
def handleClearChatHistory (uid cid : String) (now : Nat) (db : DB) : DB :=
  applyBatch db [.cleared uid cid (some now)]

/-! ### Blocking (`handleBlockToggle`) -/

/-- Toggle `users/{me}/blocked/{otherUserId}`: delete the entry when it
exists (unblock), write `true` when it does not (block).  No other path is
touched. -/
def handleBlockToggle (me otherUserId : String) (db : DB) : DB :=
  if (subGet db.blocked me otherUserId).isSome then
    { db with blocked := subRemove db.blocked me otherUserId }
  else
    { db with blocked := subSet db.blocked me otherUserId true }

/-! ### Leaving a conversation (`handleLeaveChat`) -/

/-- The `participantInfo` snapshot built from the `users` store when the
chat does not already carry one (keyed by each user record's `uid`,
skipping participants with no user record, in participant order). -/
def participantInfoFromUsers (db : DB) (participants : AList Bool) :
    AList ParticipantInfo :=
  participants.foldr
    (fun p acc =>
      match alget db.users p.1 with
      | some u => (u.uid, { displayName := u.displayName,
                            photoURL := u.photoURL }) :: acc
      | none => acc) []

/-- The single `update()` batch `handleLeaveChat` builds for user `uid`
leaving chat `cid` whose current record is `chat`: snapshot
`participantInfo` first if missing; then, when at most one participant
remains, delete the chat, all its messages and every participant's
membership entry, otherwise remove exactly the leaver's `participants`
and `keys` entries; finally drop the leaver's own membership entry and
cleared marker. -/
def leaveChatBatch (uid cid : String) (db : DB) (chat : Chat) : List Upd :=
  let snapshotUpds : List Upd :=
    if chat.participantInfo.isSome then []
    else [.chatParticipantInfo cid (participantInfoFromUsers db chat.participants)]
  let mainUpds : List Upd :=
    if chat.participants.length ≤ 1 then
      [.chatDelete cid, .messagesDelete cid] ++
        chat.participants.map (fun p => Upd.userChat p.1 cid none)
    else
      [.chatParticipantRemove cid uid, .chatKeyRemove cid uid]
  snapshotUpds ++ mainUpds ++ [.userChat uid cid none, .cleared uid cid none]

/-- The `handleLeaveChat` operation: read the chat, then issue its single
batch through the store's validated `update()`; a vanished chat makes the
whole operation a no-op, and a rejected batch (the thrown validation
error) is caught by the surrounding `try`/`catch`, leaving the store
unchanged.  The rejection fires exactly when the chat has no
`participantInfo` snapshot and at most one participant remains: there
the batch pairs `/chats/{cid}` with its descendant
`/chats/{cid}/participantInfo`. -/
def handleLeaveChat (uid cid : String) (db : DB) : DB :=
  match alget db.chats cid with
  | none => db
  | some chat =>
    match update db (leaveChatBatch uid cid db chat) with
    | .ok db2 => db2
    | .error _ => db

/-- Whitespace for the purposes of JavaScript's `String.prototype.trim`
(the ASCII subset; which exact characters count does not matter to any
theorem below). -/
def isJsWhitespace (c : Char) : Bool :=
  c = ' ' || c = '\t' || c = '\n' || c = '\r' || c = '\u000b' || c = '\u000c'

/-- JavaScript `trim()`, modelled directly on the character list. -/
def jsTrim (s : String) : String :=
  String.mk (((s.data.dropWhile isJsWhitespace).reverse.dropWhile
    isJsWhitespace).reverse)

/-! ### Creating a conversation (`handleCreateNewChat`) -/

/-- Outcome of `handleCreateNewChat` (error toasts and early returns). -/
inductive CreateChatResult
  | noInput
  | selfChat
  | blockedByMe
  | blockedByOther
  | userNotFound
  | missingPublicKey
  | importFailed
  | alreadyExists (cid : String)
  | created (cid : String)
deriving DecidableEq

/-- The single `update()` batch of the creation success path: the full
chat record (participants, snapshot, wrapped keys) at `chats/{newChatId}`,
the creator's membership entry, and the invite signal for the target. -/
def createChatBatch (newChatId : String) (chatData : Chat) (me trimmedId : String) :
    List Upd :=
  [.chatCreate newChatId chatData,
   .userChat me newChatId (some true),
   .invite trimmedId newChatId (some true)]

/-- The `handleCreateNewChat` operation.  Guard order follows the source:
empty input, self-chat, outgoing block, incoming block, unknown target,
already-existing two-party chat (searched in the UI's loaded chat list
`uiChats`), then key material (a missing public key or a failed import is
thrown and caught, leaving the store untouched).  `chatKey` is the fresh
AES key's raw bytes, `r1`/`r2` the OAEP randomness of the two wraps,
`newChatId` the freshly pushed id and `now` the server timestamp. -/
def handleCreateNewChat (rsa : RSAOAEP) (me newChatUserId : String)
    (uiChats : AList Chat) (chatKey : List Nat) (r1 r2 : rsa.Rand)
    (newChatId : String) (now : Nat) (db : DB) : CreateChatResult × DB :=
  let trimmedId := jsTrim newChatUserId
  if trimmedId = "" then (.noInput, db)
  else if trimmedId = me then (.selfChat, db)
  else if (subGet db.blocked me trimmedId).isSome then (.blockedByMe, db)
  else if (subGet db.blocked trimmedId me).isSome then (.blockedByOther, db)
  else
    match alget db.users trimmedId with
    | none => (.userNotFound, db)
    | some otherUserData =>
      match uiChats.find? (fun p =>
          p.2.participants.length = 2 &&
          (alget p.2.participants me = some true) &&
          (alget p.2.participants trimmedId = some true)) with
      | some existing => (.alreadyExists existing.1, db)
      | none =>
        match alget db.users me with
        | none => (.missingPublicKey, db)
        | some myUserData =>
          match myUserData.publicKey, otherUserData.publicKey with
          | some myPk, some otherPk =>
            match importPublicKeyFromBase64 rsa myPk,
                  importPublicKeyFromBase64 rsa otherPk with
            | some myPublicKey, some otherPublicKey =>
              let wrappedKeyForSelf := wrapChatKey rsa chatKey myPublicKey r1
              let wrappedKeyForOther := wrapChatKey rsa chatKey otherPublicKey r2
              let chatData : Chat := {
                participants := [(me, true), (trimmedId, true)],
                participantInfo := some [
                  (me, { displayName := myUserData.displayName,
                         photoURL := myUserData.photoURL }),
                  (trimmedId, { displayName := otherUserData.displayName,
                                photoURL := otherUserData.photoURL })],
                keys := [(me, wrappedKeyForSelf), (trimmedId, wrappedKeyForOther)],
                lastMessage := some "Chat created",
                timestamp := now,
                createdBy := me }
              (.created newChatId,
               applyBatch db (createChatBatch newChatId chatData me trimmedId))
            | _, _ => (.importFailed, db)
          | _, _ => (.missingPublicKey, db)

/-! ### Sending a message (`handleSubmit`, realtime-database variant of the
chat interface) -/

/-- The conversation-record preview of a sent message: the plaintext,
truncated to its first 40 characters with an ellipsis when longer. -/
def lastMessagePreview (currentMessage : String) : String :=
  if currentMessage.length > 40 then currentMessage.take 40 ++ "..."
  else currentMessage

/-- The single `update()` batch of `handleSubmit`: the encrypted message
record at `messages/{cid}/{mid}` plus the plaintext-derived `lastMessage`
preview and timestamp on the chat record. -/
def sendMessageBatch (aes : AESGCM) (uid : String)
    (displayName photoURL : Option String) (cid mid : String)
    (chatKey iv : List Nat) (currentMessage : String) (now : Nat) : List Upd :=
  let payload := encryptMessage aes currentMessage chatKey iv
  let messageData : MessageRecord := {
    uid := uid, displayName := displayName, photoURL := photoURL,
    encryptedText := payload.encrypted, iv := payload.iv, timestamp := now }
  [.messagePut cid mid messageData,
   .chatLastMessage cid (lastMessagePreview currentMessage),
   .chatTimestamp cid now]

/-- The `handleSubmit` operation: a whitespace-only draft is not sent;
otherwise the single batch above is applied. -/
def handleSubmit (aes : AESGCM) (uid : String)
    (displayName photoURL : Option String) (cid mid : String)
    (chatKey iv : List Nat) (newMessage : String) (now : Nat) (db : DB) : DB :=
  if jsTrim newMessage = "" then db
  else applyBatch db
    (sendMessageBatch aes uid displayName photoURL cid mid chatKey iv newMessage now)

/-! ### The rendered message view (the messages listener of the chat
interface, `ChatInterface`) -/

/-- One decrypted message as held in the component's `messages` state. -/
structure ChatMessageView where
  id : String
  uid : String
  displayName : Option String
  photoURL : Option String
  iv : String
  encryptedText : String
  decryptedText : String
  timestamp : Nat
deriving DecidableEq

/-- Per-message decryption as the listener performs it: `decryptMessage`
inside a `try`, any thrown exception replaced by the sentinel text. -/
def listenerDecrypt (aes : AESGCM) (encryptedText ivStr : String)
    (chatKey : List Nat) : String :=
  match decryptMessage aes encryptedText ivStr chatKey with
  | .ok s => s
  | .error _ => decryptFailureSentinel

/-- Insertion into a timestamp-sorted list. -/
def insertByTimestamp (m : ChatMessageView) :
    List ChatMessageView → List ChatMessageView
  | [] => [m]
  | x :: xs =>
      if m.timestamp ≤ x.timestamp then m :: x :: xs
      else x :: insertByTimestamp m xs

/-- The listener's re-sort of each delivered batch by `timestamp`. -/
def sortByTimestamp (l : List ChatMessageView) : List ChatMessageView :=
  l.foldr insertByTimestamp []

/-- The full rendering pipeline of the messages listener: decrypt every
record of `messages/{chatId}` and sort by timestamp.  Note that it
receives only the message node and the chat key — no cleared-history
marker reaches it. -/
def renderedMessages (aes : AESGCM) (chatKey : List Nat)
    (msgs : AList MessageRecord) : List ChatMessageView :=
  sortByTimestamp (msgs.map (fun p => {
    id := p.1, uid := p.2.uid, displayName := p.2.displayName,
    photoURL := p.2.photoURL, iv := p.2.iv,
    encryptedText := p.2.encryptedText,
    decryptedText := listenerDecrypt aes p.2.encryptedText p.2.iv chatKey,
    timestamp := p.2.timestamp }))

/-- The message view a participant sees for chat `cid` in state `db`. -/
def renderedView (aes : AESGCM) (chatKey : List Nat) (db : DB)
    (cid : String) : List ChatMessageView :=
  renderedMessages aes chatKey ((alget db.messages cid).getD [])

/-! ### The visible chat list (`processChatData` + `filteredChats`) -/

/-- Participant ids as `processChatData` derives them: the
`participantInfo` keys when the snapshot exists, otherwise the
`participants` keys that still have a `users` record. -/
def participantIds (db : DB) (c : Chat) : List String :=
  match c.participantInfo with
  | some info => info.map Prod.fst
  | none => (c.participants.map Prod.fst).filter
      (fun u => (alget db.users u).isSome)

/-- The counterpart participant (`participantsData.find(p => p.uid !== user.uid)`). -/
def chatOtherParticipant (db : DB) (me : String) (c : Chat) : Option String :=
  (participantIds db c).find? (fun p => p ≠ me)

/-- The membership guard of `processChatData`: drop a chat the user is in
neither the `participants` keys nor the `participantInfo` snapshot of. -/
def chatProcessedFor (me : String) (c : Chat) : Bool :=
  (alget c.participants me).isSome ||
    (match c.participantInfo with
     | some info => (alget info me).isSome
     | none => false)

/-- Whether chat `cid` appears in user `me`'s sidebar list: it must be in
`me`'s membership index, exist, pass `processChatData`, and its
counterpart must not be in `me`'s blocked set (`filteredChats`). -/
def visibleChat (db : DB) (me cid : String) : Bool :=
  (subGet db.userChats me cid).isSome &&
    match alget db.chats cid with
    | none => false
    | some c =>
        chatProcessedFor me c &&
          match chatOtherParticipant db me c with
          | some other => !(subGet db.blocked me other).isSome
          | none => true


/-! ### Concrete primitive instances

Toy instantiations of the two Web Crypto interface structures, showing the
contracts are satisfiable and giving the closed evaluation theorems
something to run on. -/

/-- A toy authenticated cipher: tag the plaintext with a leading zero
byte; decryption strips the tag and rejects any other ciphertext. -/
def tagAESGCM : AESGCM where
  enc := fun _ _ m => 0 :: m
  dec := fun _ _ c =>
    match c with
    | 0 :: m => some m
    | _ => none
  dec_enc := fun _ _ _ => rfl
  enc_bytes := by
    intro key iv m h b hb
    rcases List.mem_cons.mp hb with rfl | hb
    · omega
    · exact h b hb

/-- A toy key-wrapping scheme: the identity on byte buffers, with trivial
key types. -/
def tagRSA : RSAOAEP where
  PubKey := Unit
  PrivKey := Unit
  Rand := Unit
  KeyGenSeed := Unit
  generateMasterKeyPair := fun _ => ((), ())
  keypair := fun _ _ => True
  wrap := fun _ _ k => k
  unwrap := fun _ c => some c
  importPub := fun _ => some ()
  importPriv := fun _ => some ()
  generate_keypair := fun _ => trivial
  unwrap_wrap := fun _ _ _ _ _ => rfl
  wrap_bytes := fun _ _ _ h => h

/-- The toy scheme with a private-key importer that always reports the
stored bytes as undeserializable (the `Corrupt` situation of C8). -/
def rejectingImportRSA : RSAOAEP :=
  { tagRSA with importPriv := fun _ => none }


/-- The membership invariant of C6: the wrapped-keys mapping and the
participant set of a conversation reference exactly the same identity
ids. -/
def keysMatchParticipants (c : Chat) : Prop :=
  ∀ u, (alget c.participants u).isSome ↔ (alget c.keys u).isSome

/-- Fixture for the cleared-history evaluation: one message, sent at
timestamp 5, whose ciphertext the toy cipher rejects. -/
def clearFixtureMsg : MessageRecord :=
  { uid := "B", displayName := none, photoURL := none,
    encryptedText := "BBBB", iv := "AAAA", timestamp := 5 }

/-- Fixture database for the cleared-history evaluation: chat `c1` holds
the single message above. -/
def clearFixtureDB : DB :=
  { users := [], chats := [], messages := [("c1", [("m1", clearFixtureMsg)])],
    userChats := [], invites := [], blocked := [], clearedChats := [] }

/-- Fixture chat for witnesses: a single-participant conversation. -/
def soloFixtureChat : Chat :=
  { participants := [("a", true)],
    participantInfo := some [("a", { displayName := some "A", photoURL := none })],
    keys := [("a", "wa")], lastMessage := none, timestamp := 0, createdBy := "a" }

/-- Fixture chat for witnesses: a two-party conversation between `a` and
`b`. -/
def duoFixtureChat : Chat :=
  { participants := [("a", true), ("b", true)],
    participantInfo := some [("a", { displayName := some "A", photoURL := none }),
                             ("b", { displayName := some "B", photoURL := none })],
    keys := [("a", "wa"), ("b", "wb")], lastMessage := none, timestamp := 0,
    createdBy := "a" }

/-- Fixture database for witnesses: chat `c1` is the solo conversation,
chat `c2` the two-party one, and `c1` holds one message. -/
def leaveFixtureDB : DB :=
  { users := [], chats := [("c1", soloFixtureChat), ("c2", duoFixtureChat)],
    messages := [("c1", [("m1", clearFixtureMsg)])],
    userChats := [], invites := [], blocked := [], clearedChats := [] }

/-- Fixture chat for the C4 counterexample: a legacy single-participant
conversation carrying no `participantInfo` snapshot (the older creation
flow wrote none; the snapshot branch of `handleLeaveChat` exists for
exactly these chats). -/
def legacySoloChat : Chat :=
  { participants := [("a", true)], participantInfo := none,
    keys := [("a", "wa")], lastMessage := none, timestamp := 0,
    createdBy := "a" }

/-- Fixture database holding the legacy chat `c3` and one message in it. -/
def legacyFixtureDB : DB :=
  { users := [], chats := [("c3", legacySoloChat)],
    messages := [("c3", [("m1", clearFixtureMsg)])],
    userChats := [], invites := [], blocked := [], clearedChats := [] }

/-! ## Lemma layer -/

/-! ### Association-list lemmas -/

theorem alget_alset_self {α : Type} (l : AList α) (k : String) (v : α) :
    alget (alset l k v) k = some v := by
  induction l with
  | nil => simp [alset, alget]
  | cons hd t ih =>
      by_cases hk : hd.1 = k
      · simp [alset, hk, alget]
      · simp [alset, hk, alget, ih]

theorem alget_alset_ne {α : Type} (l : AList α) (k k' : String) (v : α)
    (h : k ≠ k') : alget (alset l k v) k' = alget l k' := by
  induction l with
  | nil => simp [alset, alget, h]
  | cons hd t ih =>
      by_cases hk : hd.1 = k
      · simp [alset, hk, alget, h, ih]
      · simp [alset, hk, alget, ih]

theorem alget_alremove_self {α : Type} (l : AList α) (k : String) :
    alget (alremove l k) k = none := by
  induction l with
  | nil => simp [alremove, alget]
  | cons hd t ih =>
      by_cases hk : hd.1 = k
      · simp [alremove, hk, ih]
      · simp [alremove, hk, alget, ih]

theorem alget_alremove_ne {α : Type} (l : AList α) (k k' : String)
    (h : k ≠ k') : alget (alremove l k) k' = alget l k' := by
  induction l with
  | nil => simp [alremove]
  | cons hd t ih =>
      by_cases hk : hd.1 = k
      · have : hd.1 ≠ k' := by rw [hk]; exact h
        simp [alremove, hk, alget, this, ih, h]
      · simp [alremove, hk, alget, ih]

theorem subGet_subSet {α : Type} (m : AList (AList α)) (k1 k2 k1' k2' : String)
    (v : α) :
    subGet (subSet m k1 k2 v) k1' k2' =
      if k1 = k1' ∧ k2 = k2' then some v else subGet m k1' k2' := by
  by_cases h1 : k1 = k1'
  · subst h1
    rw [subGet, subSet, alget_alset_self]
    by_cases h2 : k2 = k2'
    · subst h2
      simp [alget_alset_self]
    · simp only [h2, and_false, if_false, Option.bind]
      rw [alget_alset_ne _ _ _ _ h2]
      cases hm : alget m k1 with
      | none => simp [subGet, hm, alget]
      | some sub => simp [subGet, hm]
  · rw [subGet, subSet, alget_alset_ne _ _ _ _ h1]
    simp [h1, subGet]

theorem subGet_subRemove {α : Type} (m : AList (AList α)) (k1 k2 k1' k2' : String) :
    subGet (subRemove m k1 k2) k1' k2' =
      if k1 = k1' ∧ k2 = k2' then none else subGet m k1' k2' := by
  rw [subRemove]
  cases hm : alget m k1 with
  | none =>
      by_cases h1 : k1 = k1'
      · subst h1
        simp [subGet, hm]
      · simp [h1]
  | some sub =>
      by_cases h1 : k1 = k1'
      · subst h1
        rw [subGet, alget_alset_self]
        by_cases h2 : k2 = k2'
        · subst h2
          simp [alget_alremove_self]
        · simp [h2, subGet, hm, alget_alremove_ne _ _ _ h2]
      · rw [subGet, alget_alset_ne _ _ _ _ h1]
        simp [h1, subGet]

/-! ### Base64 round-trip -/

theorem b64Val_b64Char_fin : ∀ m : Fin 64, b64Val (b64Char m.1) = some m.1 := by
  decide

theorem b64Val_b64Char {n : Nat} (h : n < 64) : b64Val (b64Char n) = some n :=
  b64Val_b64Char_fin ⟨n, h⟩

theorem b64Char_ne_pad_fin : ∀ m : Fin 64, b64Char m.1 ≠ '=' := by decide

theorem b64Char_ne_pad {n : Nat} (h : n < 64) : b64Char n ≠ '=' :=
  b64Char_ne_pad_fin ⟨n, h⟩

theorem b64DecodeBytes_b64EncodeBytes :
    ∀ bs : List Nat, (∀ b ∈ bs, b < 256) →
      b64DecodeBytes (b64EncodeBytes bs) = some bs := by
  intro bs
  induction bs using b64EncodeBytes.induct with
  | case1 => intro _; rfl
  | case2 a =>
      intro h
      have ha : a < 256 := h a (by simp)
      simp only [b64EncodeBytes, b64DecodeBytes]
      rw [if_pos (by simp), b64Val_b64Char (by omega),
        b64Val_b64Char (by omega)]
      simp
      omega
  | case3 a b =>
      intro h
      have ha : a < 256 := h a (by simp)
      have hb : b < 256 := h b (by simp)
      simp only [b64EncodeBytes, b64DecodeBytes]
      rw [if_neg (fun hc => @b64Char_ne_pad (b % 16 * 4) (by omega) hc.1),
        if_pos (by simp), b64Val_b64Char (by omega), b64Val_b64Char (by omega),
        b64Val_b64Char (by omega)]
      simp
      omega
  | case4 a b c rest ih =>
      intro h
      have ha : a < 256 := h a (by simp)
      have hb : b < 256 := h b (by simp)
      have hc : c < 256 := h c (by simp)
      have hrest : ∀ x ∈ rest, x < 256 := fun x hx => h x (by simp [hx])
      simp only [b64EncodeBytes, b64DecodeBytes]
      rw [if_neg (fun hp => @b64Char_ne_pad (b % 16 * 4 + c / 64) (by omega) hp.1),
        if_neg (fun hp => @b64Char_ne_pad (c % 64) (by omega) hp.1),
        b64Val_b64Char (by omega), b64Val_b64Char (by omega),
        b64Val_b64Char (by omega), b64Val_b64Char (by omega), ih hrest]
      simp
      omega

theorem base64ToArrayBuffer_arrayBufferToBase64 (bs : List Nat)
    (h : ∀ b ∈ bs, b < 256) :
    base64ToArrayBuffer (arrayBufferToBase64 bs) = some bs :=
  b64DecodeBytes_b64EncodeBytes bs h

/-! ### UTF-8 round-trip -/

theorem char_scalar_valid (c : Char) :
    c.toNat < 55296 ∨ (57344 ≤ c.toNat ∧ c.toNat < 1114112) := by
  have h := c.valid
  simp [UInt32.isValidChar, Nat.isValidChar] at h
  exact h

theorem utf8DecodeLossy_one (b : Nat) (rest : List Nat) (h : b < 128) :
    utf8DecodeLossy (b :: rest) = Char.ofNat b :: utf8DecodeLossy rest := by
  rw [utf8DecodeLossy, if_pos h]

theorem utf8DecodeLossy_two (b b1 : Nat) (rest : List Nat) (h1 : 192 ≤ b)
    (h2 : b < 224) :
    utf8DecodeLossy (b :: b1 :: rest) = utf8Cont2 b b1 :: utf8DecodeLossy rest := by
  rw [utf8DecodeLossy, if_neg (by omega), if_neg (by omega), if_pos h2]
  simp [headByte]

theorem utf8DecodeLossy_three (b b1 b2 : Nat) (rest : List Nat) (h1 : 224 ≤ b)
    (h2 : b < 240) :
    utf8DecodeLossy (b :: b1 :: b2 :: rest) =
      utf8Cont3 b b1 b2 :: utf8DecodeLossy rest := by
  rw [utf8DecodeLossy, if_neg (by omega), if_neg (by omega), if_neg (by omega),
    if_pos h2]
  simp [headByte]

theorem utf8DecodeLossy_four (b b1 b2 b3 : Nat) (rest : List Nat) (h1 : 240 ≤ b) :
    utf8DecodeLossy (b :: b1 :: b2 :: b3 :: rest) =
      utf8Cont4 b b1 b2 b3 :: utf8DecodeLossy rest := by
  rw [utf8DecodeLossy, if_neg (by omega), if_neg (by omega), if_neg (by omega),
    if_neg (by omega)]
  simp [headByte]

theorem utf8DecodeLossy_encodeChar (n : Nat)
    (hv : n < 55296 ∨ (57344 ≤ n ∧ n < 1114112)) (tail : List Nat) :
    utf8DecodeLossy (utf8EncodeChar n ++ tail) =
      Char.ofNat n :: utf8DecodeLossy tail := by
  by_cases h1 : n < 128
  · unfold utf8EncodeChar
    rw [if_pos h1]
    simp only [List.cons_append, List.nil_append]
    rw [utf8DecodeLossy_one _ _ h1]
  · by_cases h2 : n < 2048
    · unfold utf8EncodeChar
      rw [if_neg h1, if_pos h2]
      simp only [List.cons_append, List.nil_append]
      rw [utf8DecodeLossy_two _ _ _ (by omega) (by omega)]
      have hcont : isCont (128 + n % 64) = true := by
        simp only [isCont, Bool.and_eq_true, decide_eq_true_eq]
        omega
      rw [utf8Cont2, hcont, if_pos rfl]
      have harg : (192 + n / 64 - 192) * 64 + (128 + n % 64 - 128) = n := by
        omega
      rw [harg, charFromCp, if_pos ⟨by omega, Or.inl (by omega)⟩]
    · by_cases h3 : n < 65536
      · unfold utf8EncodeChar
        rw [if_neg h1, if_neg h2, if_pos h3]
        simp only [List.cons_append, List.nil_append]
        rw [utf8DecodeLossy_three _ _ _ _ (by omega) (by omega)]
        have hcont1 : isCont (128 + n / 64 % 64) = true := by
          simp only [isCont, Bool.and_eq_true, decide_eq_true_eq]
          omega
        have hcont2 : isCont (128 + n % 64) = true := by
          simp only [isCont, Bool.and_eq_true, decide_eq_true_eq]
          omega
        rw [utf8Cont3, hcont1, hcont2, Bool.and_self, if_pos rfl]
        have harg : (224 + n / 4096 - 224) * 4096 +
            (128 + n / 64 % 64 - 128) * 64 + (128 + n % 64 - 128) = n := by
          omega
        rw [harg, charFromCp, if_pos ⟨by omega, hv⟩]
      · unfold utf8EncodeChar
        rw [if_neg h1, if_neg h2, if_neg h3]
        simp only [List.cons_append, List.nil_append]
        rw [utf8DecodeLossy_four _ _ _ _ _ (by omega)]
        have hcont1 : isCont (128 + n / 4096 % 64) = true := by
          simp only [isCont, Bool.and_eq_true, decide_eq_true_eq]
          omega
        have hcont2 : isCont (128 + n / 64 % 64) = true := by
          simp only [isCont, Bool.and_eq_true, decide_eq_true_eq]
          omega
        have hcont3 : isCont (128 + n % 64) = true := by
          simp only [isCont, Bool.and_eq_true, decide_eq_true_eq]
          omega
        rw [utf8Cont4, hcont1, hcont2, hcont3, Bool.and_self, Bool.and_self,
          if_pos rfl]
        have harg : (240 + n / 262144 - 240) * 262144 +
            (128 + n / 4096 % 64 - 128) * 4096 +
            (128 + n / 64 % 64 - 128) * 64 + (128 + n % 64 - 128) = n := by
          omega
        rw [harg, charFromCp, if_pos ⟨by omega, hv⟩]

theorem utf8DecodeLossy_utf8EncodeList :
    ∀ cs : List Char, utf8DecodeLossy (utf8EncodeList cs) = cs := by
  intro cs
  induction cs with
  | nil =>
      rw [utf8EncodeList, utf8DecodeLossy]
  | cons c t ih =>
      rw [utf8EncodeList, utf8DecodeLossy_encodeChar c.toNat (char_scalar_valid c),
        ih, Char.ofNat_toNat]

theorem utf8Decode_utf8Encode (s : String) : utf8Decode (utf8Encode s) = s := by
  rcases s with ⟨data⟩
  show String.mk (utf8DecodeLossy (utf8EncodeList data)) = String.mk data
  rw [utf8DecodeLossy_utf8EncodeList]

theorem utf8EncodeChar_lt_256 {n : Nat} (h : n < 1114112) :
    ∀ b ∈ utf8EncodeChar n, b < 256 := by
  unfold utf8EncodeChar
  split_ifs <;> intro b hb <;> simp at hb <;> omega

theorem utf8EncodeList_lt_256 :
    ∀ cs : List Char, ∀ b ∈ utf8EncodeList cs, b < 256 := by
  intro cs
  induction cs with
  | nil => intro b hb; simp [utf8EncodeList] at hb
  | cons c t ih =>
      intro b hb
      rw [utf8EncodeList] at hb
      rcases List.mem_append.mp hb with hb | hb
      · have hc : c.toNat < 1114112 := by
          rcases char_scalar_valid c with h | h <;> omega
        exact utf8EncodeChar_lt_256 hc b hb
      · exact ih b hb

theorem utf8Encode_lt_256 (s : String) : ∀ b ∈ utf8Encode s, b < 256 :=
  utf8EncodeList_lt_256 s.data

/-! ## Claim theorems -/

/-- C1: for every 256-bit chat key `k` (32 raw bytes) and every keypair
produced by `generateMasterKeyPair`, unwrapping the wrap of `k` under the
public key with the matching private key returns `k`:
`unwrapChatKey (wrapChatKey k pub) priv = k`. -/
theorem unwrap_wrapChatKey_roundtrip (rsa : RSAOAEP) (s : rsa.KeyGenSeed)
    (r : rsa.Rand) (k : List Nat) (hbytes : ∀ b ∈ k, b < 256)
    (hlen : k.length = 32) :
    unwrapChatKey rsa
      (wrapChatKey rsa k (rsa.generateMasterKeyPair s).1 r)
      (rsa.generateMasterKeyPair s).2 = .ok k := by
  unfold unwrapChatKey wrapChatKey
  rw [base64ToArrayBuffer_arrayBufferToBase64 _
    (rsa.wrap_bytes (rsa.generateMasterKeyPair s).1 r k hbytes)]
  simp [rsa.unwrap_wrap _ _ r k (rsa.generate_keypair s)]

/-- Witness for C1: the round-trip at a concrete 32-byte key under the toy
wrapping scheme. -/
theorem unwrap_wrapChatKey_roundtrip_witness :
    unwrapChatKey tagRSA
      (wrapChatKey tagRSA (List.replicate 32 7)
        (tagRSA.generateMasterKeyPair ()).1 ())
      (tagRSA.generateMasterKeyPair ()).2 = .ok (List.replicate 32 7) :=
  unwrap_wrapChatKey_roundtrip tagRSA () () (List.replicate 32 7)
    (by decide) (by decide)

/-- C2: for every plaintext string and AES-GCM key, decrypting the output
of `encryptMessage` (ciphertext together with its IV) under the same key
returns exactly the plaintext. -/
theorem decryptMessage_encryptMessage_roundtrip (aes : AESGCM) (text : String)
    (key iv : List Nat) (hiv : ∀ b ∈ iv, b < 256) :
    decryptMessage aes (encryptMessage aes text key iv).encrypted
      (encryptMessage aes text key iv).iv key = .ok text := by
  show decryptMessage aes (arrayBufferToBase64 (aes.enc key iv (utf8Encode text)))
    (arrayBufferToBase64 iv) key = .ok text
  unfold decryptMessage
  rw [base64ToArrayBuffer_arrayBufferToBase64 iv hiv,
    base64ToArrayBuffer_arrayBufferToBase64 _
      (aes.enc_bytes key iv _ (utf8Encode_lt_256 text))]
  simp [aes.dec_enc, utf8Decode_utf8Encode]

/-- Witness for C2: the round-trip of a concrete message under the toy
cipher and a concrete 96-bit IV. -/
theorem decryptMessage_encryptMessage_roundtrip_witness :
    decryptMessage tagAESGCM
      (encryptMessage tagAESGCM "hello" [1, 2] (List.replicate 12 0)).encrypted
      (encryptMessage tagAESGCM "hello" [1, 2] (List.replicate 12 0)).iv
      [1, 2] = .ok "hello" :=
  decryptMessage_encryptMessage_roundtrip tagAESGCM "hello" [1, 2]
    (List.replicate 12 0) (by decide)

/-- Counterexample for C9 as stated: `decryptMessage` does raise an
exception to its caller on a ciphertext that is not valid base64 (the
decode happens before the `try` block), instead of returning the sentinel
string. -/
theorem decryptMessage_raises_on_malformed_base64 :
    decryptMessage tagAESGCM "%%%%" "AAAAAAAAAAAAAAAA" [] = .error () := by
  rfl

/-- C9 as amended: on base64-decodable inputs whose authenticated
decryption fails, `decryptMessage` returns the sentinel rather than
raising; when an input is not valid base64 it raises, and the message
listener catches the exception per message and substitutes the same
sentinel, so one undecryptable message never blocks the rest of the
batch. -/
theorem decryptMessage_sentinel_on_failure (aes : AESGCM) (key : List Nat)
    (encryptedB64 ivB64 : String) :
    (∀ ivBuffer encryptedBuffer,
        base64ToArrayBuffer ivB64 = some ivBuffer →
        base64ToArrayBuffer encryptedB64 = some encryptedBuffer →
        aes.dec key ivBuffer encryptedBuffer = none →
        decryptMessage aes encryptedB64 ivB64 key = .ok decryptFailureSentinel) ∧
    (∀ e, decryptMessage aes encryptedB64 ivB64 key = .error e →
        listenerDecrypt aes encryptedB64 ivB64 key = decryptFailureSentinel) := by
  constructor
  · intro ivBuffer encryptedBuffer h1 h2 h3
    unfold decryptMessage
    rw [h1, h2]
    simp [h3]
  · intro e he
    unfold listenerDecrypt
    rw [he]

/-- Counterexample for C8 as stated: a never-stored key and a stored
corrupt key produce the same `none` result — there is no distinct
`Corrupt` outcome visible to the caller. -/
theorem getStoredPrivateKey_corrupt_not_distinct :
    getStoredPrivateKey rejectingImportRSA [] "u" = .ok (none, []) ∧
    getStoredPrivateKey rejectingImportRSA
      [(getPrivateKeyLocalStorageKey "u", "AAAA")] "u" = .ok (none, []) := by
  constructor
  · rfl
  · rfl

/-- C8 as amended: loading returns `none` when no key was stored, and the
same `none` (not a distinct `Corrupt` value) when the stored value is
valid base64 whose bytes fail to deserialize; in that case the stored
entry is purged, so a corrupt key is never retained. -/
theorem getStoredPrivateKey_notFound_and_corrupt (rsa : RSAOAEP)
    (store : AList String) (uid : String) :
    (alget store (getPrivateKeyLocalStorageKey uid) = none →
      getStoredPrivateKey rsa store uid = .ok (none, store)) ∧
    (∀ keyB64 keyBuffer,
      alget store (getPrivateKeyLocalStorageKey uid) = some keyB64 →
      base64ToArrayBuffer keyB64 = some keyBuffer →
      rsa.importPriv keyBuffer = none →
      getStoredPrivateKey rsa store uid =
        .ok (none, alremove store (getPrivateKeyLocalStorageKey uid)) ∧
      alget (alremove store (getPrivateKeyLocalStorageKey uid))
        (getPrivateKeyLocalStorageKey uid) = none) := by
  constructor
  · intro h
    unfold getStoredPrivateKey
    rw [h]
  · intro keyB64 keyBuffer h1 h2 h3
    refine ⟨?_, alget_alremove_self _ _⟩
    unfold getStoredPrivateKey
    simp [h1, h2, h3]

/-- Evaluation of the C3 failing input: user A clears chat `c1` at
timestamp 10 while its only message was sent at timestamp 5.  The cleared
marker is durably written and nothing is deleted (messages, chats and
membership data are untouched, so every other participant's view is
unchanged) — but the rendering pipeline, which never consults the marker,
still renders the timestamp-5 message for A: nothing with
`sentAt ≤ 10` is suppressed. -/
theorem clearHistory_does_not_suppress_rendered_messages :
    subGet (handleClearChatHistory "A" "c1" 10 clearFixtureDB).clearedChats
      "A" "c1" = some 10 ∧
    (handleClearChatHistory "A" "c1" 10 clearFixtureDB).messages =
      clearFixtureDB.messages ∧
    (handleClearChatHistory "A" "c1" 10 clearFixtureDB).chats =
      clearFixtureDB.chats ∧
    (handleClearChatHistory "A" "c1" 10 clearFixtureDB).userChats =
      clearFixtureDB.userChats ∧
    renderedView tagAESGCM [9] (handleClearChatHistory "A" "c1" 10 clearFixtureDB)
        "c1" =
      renderedView tagAESGCM [9] clearFixtureDB "c1" ∧
    renderedView tagAESGCM [9] (handleClearChatHistory "A" "c1" 10 clearFixtureDB)
        "c1" =
      [{ id := "m1", uid := "B", displayName := none, photoURL := none,
         iv := "AAAA", encryptedText := "BBBB",
         decryptedText := decryptFailureSentinel, timestamp := 5 }] :=
  ⟨rfl, rfl, rfl, rfl, rfl, rfl⟩

/-- Reduction of `resolveInvite` when the chat exists and contains the
target. -/
theorem resolveInvite_pos {uid cid : String} {db : DB} {chat : Chat}
    (hchat : alget db.chats cid = some chat)
    (hmem : alget chat.participants uid = some true) :
    resolveInvite uid cid db =
      { db with userChats := subSet db.userChats uid cid true,
                invites := subRemove db.invites uid cid } := by
  unfold resolveInvite
  simp only [hchat]
  rw [if_pos hmem]
  rfl

/-- Reduction of `resolveInvite` when the chat exists but does not contain
the target. -/
theorem resolveInvite_neg {uid cid : String} {db : DB} {chat : Chat}
    (hchat : alget db.chats cid = some chat)
    (hmem : ¬ alget chat.participants uid = some true) :
    resolveInvite uid cid db =
      { db with invites := subRemove db.invites uid cid } := by
  unfold resolveInvite
  simp only [hchat]
  rw [if_neg hmem]
  rfl

/-- Reduction of `resolveInvite` when the chat no longer exists. -/
theorem resolveInvite_gone {uid cid : String} {db : DB}
    (hchat : alget db.chats cid = none) :
    resolveInvite uid cid db =
      { db with invites := subRemove db.invites uid cid } := by
  unfold resolveInvite
  simp only [hchat]
  rfl

/-- C5: resolving a pending invite `(uid, cid)` records membership and
deletes the invite when the conversation's authoritative participant set
contains `uid`; deletes the invite without touching any membership entry
when it does not (or the conversation no longer exists); and resolving a
second time is observationally a no-op. -/
theorem resolveInvite_correct (uid cid : String) (db : DB) :
    (∀ chat, alget db.chats cid = some chat →
      alget chat.participants uid = some true →
      subGet (resolveInvite uid cid db).userChats uid cid = some true ∧
      subGet (resolveInvite uid cid db).invites uid cid = none) ∧
    ((¬ ∃ chat, alget db.chats cid = some chat ∧
        alget chat.participants uid = some true) →
      subGet (resolveInvite uid cid db).invites uid cid = none ∧
      ∀ u c, subGet (resolveInvite uid cid db).userChats u c =
        subGet db.userChats u c) ∧
    DB.Equiv (resolveInvite uid cid (resolveInvite uid cid db))
      (resolveInvite uid cid db) := by
  refine ⟨?_, ?_, ?_⟩
  · intro chat hchat hmem
    rw [resolveInvite_pos hchat hmem]
    constructor
    · show subGet (subSet db.userChats uid cid true) uid cid = some true
      rw [subGet_subSet]
      simp
    · show subGet (subRemove db.invites uid cid) uid cid = none
      rw [subGet_subRemove]
      simp
  · intro hno
    have hinv : ∀ m : AList (AList Bool),
        subGet (subRemove m uid cid) uid cid = none := by
      intro m
      rw [subGet_subRemove]
      simp
    cases hchat : alget db.chats cid with
    | none =>
        rw [resolveInvite_gone hchat]
        exact ⟨hinv db.invites, fun u c => rfl⟩
    | some chat =>
        have hmem : ¬ alget chat.participants uid = some true := by
          intro hm
          exact hno ⟨chat, hchat, hm⟩
        rw [resolveInvite_neg hchat hmem]
        exact ⟨hinv db.invites, fun u c => rfl⟩
  · have hrem : ∀ (m : AList (AList Bool)) k1 k2,
        subGet (subRemove (subRemove m uid cid) uid cid) k1 k2 =
          subGet (subRemove m uid cid) k1 k2 := by
      intro m k1 k2
      rw [subGet_subRemove, subGet_subRemove]
      by_cases h : uid = k1 ∧ cid = k2 <;> simp [h]
    cases hchat : alget db.chats cid with
    | none =>
        rw [resolveInvite_gone hchat]
        rw [resolveInvite_gone (show alget ({ db with
          invites := subRemove db.invites uid cid } : DB).chats cid = none
          from hchat)]
        exact ⟨fun k => rfl, fun k => rfl, fun k1 k2 => rfl, fun k1 k2 => rfl,
          fun k1 k2 => hrem db.invites k1 k2, fun k1 k2 => rfl,
          fun k1 k2 => rfl⟩
    | some chat =>
        by_cases hmem : alget chat.participants uid = some true
        · rw [resolveInvite_pos hchat hmem]
          rw [resolveInvite_pos (show alget ({ db with
              userChats := subSet db.userChats uid cid true,
              invites := subRemove db.invites uid cid } : DB).chats cid =
              some chat from hchat) hmem]
          refine ⟨fun k => rfl, fun k => rfl, fun k1 k2 => rfl, ?_,
            fun k1 k2 => hrem db.invites k1 k2, fun k1 k2 => rfl,
            fun k1 k2 => rfl⟩
          intro k1 k2
          show subGet (subSet (subSet db.userChats uid cid true) uid cid true)
            k1 k2 = subGet (subSet db.userChats uid cid true) k1 k2
          rw [subGet_subSet, subGet_subSet]
          by_cases h : uid = k1 ∧ cid = k2 <;> simp [h]
        · rw [resolveInvite_neg hchat hmem]
          rw [resolveInvite_neg (show alget ({ db with
              invites := subRemove db.invites uid cid } : DB).chats cid =
              some chat from hchat) hmem]
          exact ⟨fun k => rfl, fun k => rfl, fun k1 k2 => rfl, fun k1 k2 => rfl,
            fun k1 k2 => hrem db.invites k1 k2, fun k1 k2 => rfl,
            fun k1 k2 => rfl⟩

/-- Per-element shape used to show trailing membership-index updates do
not touch the chat or message stores. -/
theorem applyBatch_aux_preserves (l : List Upd) :
    ∀ db : DB,
    (∀ u ∈ l, (∃ a b v, u = Upd.userChat a b v) ∨
              (∃ a b v, u = Upd.cleared a b v)) →
    (applyBatch db l).chats = db.chats ∧
    (applyBatch db l).messages = db.messages := by
  induction l with
  | nil => exact fun db _ => ⟨rfl, rfl⟩
  | cons hd t ih =>
      intro db h
      have ht : ∀ u ∈ t, (∃ a b v, u = Upd.userChat a b v) ∨
          (∃ a b v, u = Upd.cleared a b v) := fun u hu => h u (by simp [hu])
      have hrest := ih (applyUpd db hd) ht
      have hstep : (applyUpd db hd).chats = db.chats ∧
          (applyUpd db hd).messages = db.messages := by
        rcases h hd (by simp) with ⟨a, b, v, rfl⟩ | ⟨a, b, v, rfl⟩ <;>
          cases v <;> exact ⟨rfl, rfl⟩
      exact ⟨hrest.1.trans hstep.1, hrest.2.trans hstep.2⟩

/-- The trailing updates of every leave batch are membership-index
updates. -/
theorem leave_tail_shape (uid cid : String) (participants : AList Bool) :
    ∀ u ∈ (participants.map (fun p => Upd.userChat p.1 cid none) ++
      [Upd.userChat uid cid none, Upd.cleared uid cid none]),
      (∃ a b v, u = Upd.userChat a b v) ∨ (∃ a b v, u = Upd.cleared a b v) := by
  intro u hu
  rcases List.mem_append.mp hu with hu | hu
  · rcases List.mem_map.mp hu with ⟨p, _, rfl⟩
    exact Or.inl ⟨p.1, cid, none, rfl⟩
  · simp only [List.mem_cons, List.not_mem_nil, or_false] at hu
    rcases hu with rfl | rfl
    · exact Or.inl ⟨uid, cid, none, rfl⟩
    · exact Or.inr ⟨uid, cid, none, rfl⟩

/-- Pointwise reading of `modifyChat`. -/
theorem modifyChat_eq {db : DB} {cid : String} {chat : Chat}
    (hchat : alget db.chats cid = some chat) (f : Chat → Chat) :
    modifyChat db cid f = { db with chats := alset db.chats cid (f chat) } := by
  unfold modifyChat
  rw [hchat]

/-- The chat record read back after `modifyChat`. -/
theorem alget_modifyChat_self {db : DB} {cid : String} {chat : Chat}
    (hchat : alget db.chats cid = some chat) (f : Chat → Chat) :
    alget (modifyChat db cid f).chats cid = some (f chat) := by
  rw [modifyChat_eq hchat]
  exact alget_alset_self _ _ _

/-- `modifyChat` leaves the message store untouched. -/
theorem modifyChat_messages (db : DB) (cid : String) (f : Chat → Chat) :
    (modifyChat db cid f).messages = db.messages := by
  unfold modifyChat
  cases alget db.chats cid <;> rfl

/-- A segmentwise prefix between equal-length paths holds in both
directions (the paths are equal). -/
theorem pathBelow_symm_of_length (p : List String) :
    ∀ q : List String, p.length = q.length → pathBelow p q = pathBelow q p := by
  induction p with
  | nil =>
      intro q h
      cases q with
      | nil => rfl
      | cons b bs => simp at h
  | cons a as ih =>
      intro q h
      cases q with
      | nil => simp at h
      | cons b bs =>
          simp only [pathBelow]
          rw [ih bs (by simpa using h)]
          congr 1
          exact decide_eq_decide.mpr eq_comm

/-- Equal-length paths are never strict ancestors of one another. -/
theorem pathStrictBelow_same_length (p q : List String)
    (h : p.length = q.length) : pathStrictBelow p q = false := by
  unfold pathStrictBelow
  rw [pathBelow_symm_of_length p q h]
  exact Bool.and_not_self _

/-- A batch passes the SDK validation when no pair of its written paths is
ancestor-related. -/
theorem batchConflict_eq_false {l : List Upd}
    (h : ∀ u ∈ l, ∀ v ∈ l, pathStrictBelow u.path v.path = false) :
    batchConflict l = false := by
  unfold batchConflict
  rw [List.any_eq_false]
  intro u hu
  rw [Bool.not_eq_true, List.any_eq_false]
  intro v hv
  simp [h u hu v hv]

/-- A validated batch applies with merge semantics. -/
theorem update_ok {db : DB} {l : List Upd} (h : batchConflict l = false) :
    update db l = .ok (applyBatch db l) := by
  unfold update
  rw [h]
  simp

/-- A conflicting batch is rejected whole. -/
theorem update_error {db : DB} {l : List Upd} (h : batchConflict l = true) :
    update db l = .error () := by
  unfold update
  rw [h]
  simp

/-- The last-leaver batch of a chat that carries a snapshot writes only
the chat record, the message node and membership-index entries: no
ancestor-related pair. -/
theorem conflict_free_last_snap (uid cid : String) (participants : AList Bool) :
    batchConflict (Upd.chatDelete cid :: Upd.messagesDelete cid ::
      (participants.map (fun p => Upd.userChat p.1 cid none) ++
       [Upd.userChat uid cid none, Upd.cleared uid cid none])) = false := by
  apply batchConflict_eq_false
  intro u hu v hv
  simp only [List.mem_cons, List.mem_append, List.mem_map,
    List.not_mem_nil, or_false] at hu hv
  rcases hu with rfl | rfl | ⟨p, hp, rfl⟩ | rfl | rfl <;>
    rcases hv with rfl | rfl | ⟨q, hq, rfl⟩ | rfl | rfl <;>
      first
        | rfl
        | exact pathStrictBelow_same_length _ _ rfl
        | simp [Upd.path, pathStrictBelow, pathBelow]

/-- The multi-party leave batch with a snapshot present: no
ancestor-related pair. -/
theorem conflict_free_multi_snap (uid cid : String) :
    batchConflict (Upd.chatParticipantRemove cid uid ::
      Upd.chatKeyRemove cid uid ::
      [Upd.userChat uid cid none, Upd.cleared uid cid none]) = false := by
  apply batchConflict_eq_false
  intro u hu v hv
  simp only [List.mem_cons, List.not_mem_nil, or_false] at hu hv
  rcases hu with rfl | rfl | rfl | rfl <;>
    rcases hv with rfl | rfl | rfl | rfl <;>
      first
        | rfl
        | exact pathStrictBelow_same_length _ _ rfl
        | simp [Upd.path, pathStrictBelow, pathBelow]

/-- The multi-party leave batch with the snapshot being written: the
`participantInfo` path is a sibling, not an ancestor, of the removed
`participants`/`keys` entries, so the batch still validates. -/
theorem conflict_free_multi_nosnap (uid cid : String)
    (info : AList ParticipantInfo) :
    batchConflict (Upd.chatParticipantInfo cid info ::
      Upd.chatParticipantRemove cid uid :: Upd.chatKeyRemove cid uid ::
      [Upd.userChat uid cid none, Upd.cleared uid cid none]) = false := by
  apply batchConflict_eq_false
  intro u hu v hv
  simp only [List.mem_cons, List.not_mem_nil, or_false] at hu hv
  rcases hu with rfl | rfl | rfl | rfl | rfl <;>
    rcases hv with rfl | rfl | rfl | rfl | rfl <;>
      first
        | rfl
        | exact pathStrictBelow_same_length _ _ rfl
        | simp [Upd.path, pathStrictBelow, pathBelow]

/-- The last-leaver batch with the snapshot being written pairs
`/chats/{cid}` with its descendant `/chats/{cid}/participantInfo`: the
SDK validation rejects it. -/
theorem conflict_last_nosnap (uid cid : String) (info : AList ParticipantInfo)
    (participants : AList Bool) :
    batchConflict (Upd.chatParticipantInfo cid info ::
      Upd.chatDelete cid :: Upd.messagesDelete cid ::
      (participants.map (fun p => Upd.userChat p.1 cid none) ++
       [Upd.userChat uid cid none, Upd.cleared uid cid none])) = true := by
  unfold batchConflict
  rw [List.any_eq_true]
  refine ⟨Upd.chatDelete cid, by simp, ?_⟩
  rw [List.any_eq_true]
  refine ⟨Upd.chatParticipantInfo cid info, by simp, ?_⟩
  simp [Upd.path, pathStrictBelow, pathBelow]

/-- The creation batch writes the chat record, the creator's membership
entry and the target's invite: three unrelated path families, so
expressing it with the merge semantics directly is sound. -/
theorem conflict_free_createChatBatch (newChatId : String) (chatData : Chat)
    (me trimmedId : String) :
    batchConflict (createChatBatch newChatId chatData me trimmedId) = false := by
  apply batchConflict_eq_false
  intro u hu v hv
  simp only [createChatBatch, List.mem_cons, List.not_mem_nil, or_false]
    at hu hv
  rcases hu with rfl | rfl | rfl <;> rcases hv with rfl | rfl | rfl <;>
    first
      | rfl
      | exact pathStrictBelow_same_length _ _ rfl
      | simp [Upd.path, pathStrictBelow, pathBelow]

/-- The send batch writes the message record and two sibling fields of
the chat record: no ancestor-related pair, so expressing it with the
merge semantics directly is sound. -/
theorem conflict_free_sendMessageBatch (aes : AESGCM) (uid : String)
    (displayName photoURL : Option String) (cid mid : String)
    (chatKey iv : List Nat) (currentMessage : String) (now : Nat) :
    batchConflict (sendMessageBatch aes uid displayName photoURL cid mid
      chatKey iv currentMessage now) = false := by
  apply batchConflict_eq_false
  intro u hu v hv
  simp only [sendMessageBatch, List.mem_cons, List.not_mem_nil, or_false]
    at hu hv
  rcases hu with rfl | rfl | rfl <;> rcases hv with rfl | rfl | rfl <;>
    first
      | rfl
      | exact pathStrictBelow_same_length _ _ rfl
      | simp [Upd.path, pathStrictBelow, pathBelow]

/-- The invite-acceptance batch writes one membership entry and one
invite entry: unrelated paths, so expressing it with the merge semantics
directly is sound. -/
theorem conflict_free_acceptInviteBatch (uid cid : String) :
    batchConflict [Upd.userChat uid cid (some true), Upd.invite uid cid none] =
      false := by
  apply batchConflict_eq_false
  intro u hu v hv
  simp only [List.mem_cons, List.not_mem_nil, or_false] at hu hv
  rcases hu with rfl | rfl <;> rcases hv with rfl | rfl <;>
    first
      | rfl
      | exact pathStrictBelow_same_length _ _ rfl
      | simp [Upd.path, pathStrictBelow, pathBelow]

/-- Reduction of `handleLeaveChat` in the last-leaver case of a chat that
carries a `participantInfo` snapshot: its batch validates, so the chat
record and all its messages are removed. -/
theorem handleLeaveChat_last {uid cid : String} {db : DB} {chat : Chat}
    (hchat : alget db.chats cid = some chat)
    (hlen : chat.participants.length ≤ 1)
    (hpi : chat.participantInfo.isSome = true) :
    alget (handleLeaveChat uid cid db).chats cid = none ∧
    alget (handleLeaveChat uid cid db).messages cid = none := by
  unfold handleLeaveChat
  simp only [hchat]
  simp only [leaveChatBatch, if_pos hlen, if_pos hpi]
  simp only [List.nil_append, List.cons_append]
  rw [update_ok (conflict_free_last_snap uid cid chat.participants)]
  have hpres := applyBatch_aux_preserves _
    (applyUpd (applyUpd db (Upd.chatDelete cid)) (Upd.messagesDelete cid))
    (leave_tail_shape uid cid chat.participants)
  show alget (applyBatch
      (applyUpd (applyUpd db (Upd.chatDelete cid)) (Upd.messagesDelete cid))
      (chat.participants.map (fun p => Upd.userChat p.1 cid none) ++
       [Upd.userChat uid cid none, Upd.cleared uid cid none])).chats cid =
      none ∧
    alget (applyBatch
      (applyUpd (applyUpd db (Upd.chatDelete cid)) (Upd.messagesDelete cid))
      (chat.participants.map (fun p => Upd.userChat p.1 cid none) ++
       [Upd.userChat uid cid none, Upd.cleared uid cid none])).messages cid =
      none
  rw [hpres.1, hpres.2]
  exact ⟨alget_alremove_self _ _, alget_alremove_self _ _⟩

/-- Reduction of `handleLeaveChat` in the last-leaver case of a legacy
chat with no snapshot: the batch pairs the chat path with its descendant
`participantInfo` path, the store rejects it, the thrown error is caught,
and the whole operation leaves the database unchanged. -/
theorem handleLeaveChat_last_nosnap {uid cid : String} {db : DB} {chat : Chat}
    (hchat : alget db.chats cid = some chat)
    (hlen : chat.participants.length ≤ 1)
    (hpi : chat.participantInfo = none) :
    handleLeaveChat uid cid db = db := by
  unfold handleLeaveChat
  simp only [hchat]
  simp only [leaveChatBatch, if_pos hlen, hpi]
  rw [if_neg (show ¬ (none : Option (AList ParticipantInfo)).isSome = true
    from by simp)]
  simp only [List.cons_append, List.nil_append]
  rw [update_error (conflict_last_nosnap uid cid
    (participantInfoFromUsers db chat.participants) chat.participants)]

/-- Reduction of `handleLeaveChat` when more than one participant remains:
the batch validates whether or not the snapshot is being written, and
exactly the leaver's `participants` and `keys` entries are removed. -/
theorem handleLeaveChat_multi {uid cid : String} {db : DB} {chat : Chat}
    (hchat : alget db.chats cid = some chat)
    (hlen : ¬ chat.participants.length ≤ 1) :
    ∃ c2, alget (handleLeaveChat uid cid db).chats cid = some c2 ∧
      c2.participants = alremove chat.participants uid ∧
      c2.keys = alremove chat.keys uid ∧
      c2.lastMessage = chat.lastMessage ∧
      c2.timestamp = chat.timestamp ∧
      c2.createdBy = chat.createdBy := by
  unfold handleLeaveChat
  simp only [hchat]
  simp only [leaveChatBatch, if_neg hlen]
  cases hpi : chat.participantInfo with
  | some info =>
      rw [if_pos (show (some info).isSome = true from rfl)]
      simp only [List.nil_append, List.cons_append]
      rw [update_ok (conflict_free_multi_snap uid cid)]
      have h1 : alget (modifyChat db cid (fun c =>
          { c with participants := alremove c.participants uid })).chats cid =
          some { chat with participants := alremove chat.participants uid } :=
        alget_modifyChat_self hchat _
      have h2 : alget (modifyChat (modifyChat db cid (fun c =>
          { c with participants := alremove c.participants uid })) cid (fun c =>
          { c with keys := alremove c.keys uid })).chats cid =
          some { chat with
            participants := alremove chat.participants uid
            keys := alremove chat.keys uid } :=
        alget_modifyChat_self h1 _
      exact ⟨_, h2, rfl, rfl, rfl, rfl, rfl⟩
  | none =>
      rw [if_neg (show ¬ (none : Option (AList ParticipantInfo)).isSome = true
        from by simp)]
      simp only [List.cons_append, List.nil_append]
      rw [update_ok (conflict_free_multi_nosnap uid cid
        (participantInfoFromUsers db chat.participants))]
      have h0 : alget (modifyChat db cid (fun c =>
          { c with participantInfo := some (participantInfoFromUsers db chat.participants) })).chats cid =
          some { chat with participantInfo := some (participantInfoFromUsers db chat.participants) } :=
        alget_modifyChat_self hchat _
      have h1 : alget (modifyChat (modifyChat db cid (fun c =>
          { c with participantInfo := some (participantInfoFromUsers db chat.participants) })) cid (fun c =>
          { c with participants := alremove c.participants uid })).chats cid =
          some { chat with
            participantInfo := some (participantInfoFromUsers db chat.participants)
            participants := alremove chat.participants uid } :=
        alget_modifyChat_self h0 _
      have h2 : alget (modifyChat (modifyChat (modifyChat db cid (fun c =>
          { c with participantInfo := some (participantInfoFromUsers db chat.participants) })) cid (fun c =>
          { c with participants := alremove c.participants uid })) cid (fun c =>
          { c with keys := alremove c.keys uid })).chats cid =
          some { chat with
            participantInfo := some (participantInfoFromUsers db chat.participants)
            participants := alremove chat.participants uid
            keys := alremove chat.keys uid } :=
        alget_modifyChat_self h1 _
      exact ⟨_, h2, rfl, rfl, rfl, rfl, rfl⟩

/-- Counterexample to C4 as stated: `a` is the sole participant of the
legacy chat `c3`, which carries no `participantInfo` snapshot.  Leaving
does not delete the conversation record or its messages: the single
batched update pairs `/chats/c3` with its descendant
`/chats/c3/participantInfo`, the store's validation rejects it, the
caught error leaves the database exactly as it was. -/
theorem handleLeaveChat_legacy_last_leaver_not_deleted :
    alget (handleLeaveChat "a" "c3" legacyFixtureDB).chats "c3" =
      some legacySoloChat ∧
    alget (handleLeaveChat "a" "c3" legacyFixtureDB).messages "c3" =
      some [("m1", clearFixtureMsg)] ∧
    handleLeaveChat "a" "c3" legacyFixtureDB = legacyFixtureDB := by
  refine ⟨rfl, rfl, rfl⟩

/-- C4 as amended: when user `A` leaves a conversation whose participant
set is exactly `{A}`, the conversation record and all of its messages are
deleted provided the record already carries a `participantInfo` snapshot;
when the snapshot is missing, the batched update pairs the conversation
path with its descendant `participantInfo` path, the store rejects it and
the caught error leaves everything unchanged.  When `A` leaves a
conversation with participant set `{A, B}`, the record survives with
participant set `{B}` and the only wrapped-key entry removed is `A`'s
(whether or not the snapshot was present). -/
theorem handleLeaveChat_last_leaver_and_two_party (A B cid : String) (db : DB)
    (chat : Chat) (hchat : alget db.chats cid = some chat) :
    (chat.participants = [(A, true)] → chat.participantInfo.isSome = true →
      alget (handleLeaveChat A cid db).chats cid = none ∧
      alget (handleLeaveChat A cid db).messages cid = none) ∧
    (chat.participants = [(A, true)] → chat.participantInfo = none →
      handleLeaveChat A cid db = db) ∧
    (chat.participants = [(A, true), (B, true)] → A ≠ B →
      ∃ c2, alget (handleLeaveChat A cid db).chats cid = some c2 ∧
        c2.participants = [(B, true)] ∧
        alget c2.keys A = none ∧
        ∀ u, u ≠ A → alget c2.keys u = alget chat.keys u) := by
  refine ⟨?_, ?_, ?_⟩
  · intro hparts hpi
    exact handleLeaveChat_last hchat (by rw [hparts]; simp) hpi
  · intro hparts hpi
    exact handleLeaveChat_last_nosnap hchat (by rw [hparts]; simp) hpi
  · intro hparts hAB
    obtain ⟨c2, hc2, hp, hk, _, _, _⟩ :=
      @handleLeaveChat_multi A cid db chat hchat (by rw [hparts]; simp)
    refine ⟨c2, hc2, ?_, ?_, ?_⟩
    · rw [hp, hparts]
      have hBA : B ≠ A := Ne.symm hAB
      simp [alremove, hBA]
    · rw [hk]
      exact alget_alremove_self _ _
    · intro u hu
      rw [hk]
      exact alget_alremove_ne _ _ _ (Ne.symm hu)

/-- Witness for C4 as amended: at the fixture database, leaving the
snapshot-carrying solo chat `c1` deletes it and its messages, and `a`
leaving the two-party chat `c2` leaves `b` as sole participant with only
`a`'s wrapped key removed. -/
theorem handleLeaveChat_last_leaver_and_two_party_witness :
    (alget (handleLeaveChat "a" "c1" leaveFixtureDB).chats "c1" = none ∧
     alget (handleLeaveChat "a" "c1" leaveFixtureDB).messages "c1" = none) ∧
    (∃ c2, alget (handleLeaveChat "a" "c2" leaveFixtureDB).chats "c2" = some c2 ∧
      c2.participants = [("b", true)] ∧
      alget c2.keys "a" = none ∧
      ∀ u, u ≠ "a" → alget c2.keys u = alget duoFixtureChat.keys u) :=
  ⟨(handleLeaveChat_last_leaver_and_two_party "a" "b" "c1" leaveFixtureDB
      soloFixtureChat rfl).1 rfl rfl,
   (handleLeaveChat_last_leaver_and_two_party "a" "b" "c2" leaveFixtureDB
      duoFixtureChat rfl).2.2 rfl (by decide)⟩

/-- C6: membership-mutating operations keep the wrapped-keys mapping and
the participant set on exactly the same identity ids, and ship the
participant-set change and the wrapped-keys change in one single batched
write (creation writes both inside the one `chatCreate` update of its
batch; leave puts both removals in its one batch), so a reader of the
atomically applied batch never observes one without the other. -/
theorem membership_mutations_preserve_invariant (rsa : RSAOAEP)
    (me newChatUserId : String) (uiChats : AList Chat) (chatKey : List Nat)
    (r1 r2 : rsa.Rand) (newChatId : String) (now : Nat) (db : DB)
    (A cid : String) (chat : Chat) :
    (∀ resCid db2,
      handleCreateNewChat rsa me newChatUserId uiChats chatKey r1 r2 newChatId
        now db = (.created resCid, db2) →
      ∃ c, alget db2.chats resCid = some c ∧ keysMatchParticipants c) ∧
    (alget db.chats cid = some chat → keysMatchParticipants chat →
      ∀ c2, alget (handleLeaveChat A cid db).chats cid = some c2 →
      keysMatchParticipants c2) ∧
    (alget db.chats cid = some chat → ¬ chat.participants.length ≤ 1 →
      Upd.chatParticipantRemove cid A ∈ leaveChatBatch A cid db chat ∧
      Upd.chatKeyRemove cid A ∈ leaveChatBatch A cid db chat) := by
  refine ⟨?_, ?_, ?_⟩
  · intro resCid db2 h
    simp only [handleCreateNewChat] at h
    by_cases h1 : jsTrim newChatUserId = ""
    · rw [if_pos h1] at h
      exact absurd h (by simp)
    rw [if_neg h1] at h
    by_cases h2 : jsTrim newChatUserId = me
    · rw [if_pos h2] at h
      exact absurd h (by simp)
    rw [if_neg h2] at h
    by_cases h3 : (subGet db.blocked me (jsTrim newChatUserId)).isSome = true
    · rw [if_pos h3] at h
      exact absurd h (by simp)
    rw [if_neg h3] at h
    by_cases h4 : (subGet db.blocked (jsTrim newChatUserId) me).isSome = true
    · rw [if_pos h4] at h
      exact absurd h (by simp)
    rw [if_neg h4] at h
    cases hu : alget db.users (jsTrim newChatUserId) with
    | none =>
        simp only [hu] at h
        exact absurd h (by simp)
    | some otherUserData =>
    simp only [hu] at h
    cases hf : uiChats.find? (fun p =>
        p.2.participants.length = 2 &&
        (alget p.2.participants me = some true) &&
        (alget p.2.participants (jsTrim newChatUserId) = some true)) with
    | some existing =>
        simp only [hf] at h
        exact absurd h (by simp)
    | none =>
    simp only [hf] at h
    cases hme : alget db.users me with
    | none =>
        simp only [hme] at h
        exact absurd h (by simp)
    | some myUserData =>
    simp only [hme] at h
    cases hpk1 : myUserData.publicKey with
    | none =>
        simp only [hpk1] at h
        exact absurd h (by simp)
    | some myPk =>
    simp only [hpk1] at h
    cases hpk2 : otherUserData.publicKey with
    | none =>
        simp only [hpk2] at h
        exact absurd h (by simp)
    | some otherPk =>
    simp only [hpk2] at h
    cases him1 : importPublicKeyFromBase64 rsa myPk with
    | none =>
        simp only [him1] at h
        exact absurd h (by simp)
    | some myPublicKey =>
    simp only [him1] at h
    cases him2 : importPublicKeyFromBase64 rsa otherPk with
    | none =>
        simp only [him2] at h
        exact absurd h (by simp)
    | some otherPublicKey =>
    simp only [him2] at h
    rw [Prod.mk.injEq] at h
    obtain ⟨hres, hdb⟩ := h
    injection hres with hres
    subst hres
    have hget : alget db2.chats newChatId = some {
        participants := [(me, true), (jsTrim newChatUserId, true)]
        participantInfo := some [(me, { displayName := myUserData.displayName, photoURL := myUserData.photoURL }), (jsTrim newChatUserId, { displayName := otherUserData.displayName, photoURL := otherUserData.photoURL })]
        keys := [(me, wrapChatKey rsa chatKey myPublicKey r1), (jsTrim newChatUserId, wrapChatKey rsa chatKey otherPublicKey r2)]
        lastMessage := some "Chat created"
        timestamp := now
        createdBy := me } := by
      rw [← hdb]
      exact alget_alset_self _ _ _
    refine ⟨_, hget, ?_⟩
    intro u
    simp only [alget]
    by_cases hmu : me = u <;> by_cases htu : jsTrim newChatUserId = u <;>
      simp [hmu, htu]
  · intro hchat hm c2 hc2
    by_cases hlen : chat.participants.length ≤ 1
    · cases hpi : chat.participantInfo with
      | some info =>
          have := (@handleLeaveChat_last A cid db chat hchat hlen
            (by rw [hpi]; rfl)).1
          rw [this] at hc2
          cases hc2
      | none =>
          rw [@handleLeaveChat_last_nosnap A cid db chat hchat hlen hpi,
            hchat] at hc2
          obtain rfl : chat = c2 := by
            cases hc2
            rfl
          exact hm
    · obtain ⟨c3, hc3, hp, hk, _, _, _⟩ :=
        @handleLeaveChat_multi A cid db chat hchat hlen
      rw [hc3] at hc2
      obtain rfl : c3 = c2 := by
        cases hc2
        rfl
      intro u
      rw [hp, hk]
      by_cases hu : u = A
      · subst hu
        rw [alget_alremove_self, alget_alremove_self]
        exact Iff.rfl
      · rw [alget_alremove_ne _ _ _ (Ne.symm hu),
          alget_alremove_ne _ _ _ (Ne.symm hu)]
        exact hm u
  · intro hchat hlen
    unfold leaveChatBatch
    rw [if_neg hlen]
    constructor
    · exact List.mem_append_left _ (List.mem_append_right _ (by simp))
    · exact List.mem_append_left _ (List.mem_append_right _ (by simp))

/-- The counterpart of a chat does not depend on the blocked store. -/
theorem chatOtherParticipant_blocked_irrel (db : DB) (bl : AList (AList Bool))
    (me : String) (c : Chat) :
    chatOtherParticipant { db with blocked := bl } me c =
      chatOtherParticipant db me c := rfl

/-- C7: a block in either direction makes `handleCreateNewChat` return an
error without touching the store; blocking only writes the blocker's own
blocked entry (conversation data untouched) and hides every chat whose
counterpart is the blocked user from the blocker's visible list; and
unblocking restores the observable state — same blocked store, same
conversation data, same visible list. -/
theorem blocked_rejects_create_and_hides_reversibly (rsa : RSAOAEP)
    (me newChatUserId : String) (uiChats : AList Chat) (chatKey : List Nat)
    (r1 r2 : rsa.Rand) (newChatId : String) (now : Nat) (db : DB) (B : String) :
    (jsTrim newChatUserId ≠ "" → jsTrim newChatUserId ≠ me →
      ((subGet db.blocked me (jsTrim newChatUserId)).isSome ∨
       (subGet db.blocked (jsTrim newChatUserId) me).isSome) →
      (handleCreateNewChat rsa me newChatUserId uiChats chatKey r1 r2 newChatId
          now db).2 = db ∧
      ((handleCreateNewChat rsa me newChatUserId uiChats chatKey r1 r2 newChatId
          now db).1 = .blockedByMe ∨
       (handleCreateNewChat rsa me newChatUserId uiChats chatKey r1 r2 newChatId
          now db).1 = .blockedByOther)) ∧
    ((handleBlockToggle me B db).chats = db.chats ∧
     (handleBlockToggle me B db).messages = db.messages ∧
     (handleBlockToggle me B db).users = db.users ∧
     (handleBlockToggle me B db).userChats = db.userChats) ∧
    (∀ cid c, subGet db.blocked me B = none →
      alget db.chats cid = some c → chatOtherParticipant db me c = some B →
      visibleChat (handleBlockToggle me B db) me cid = false) ∧
    (subGet db.blocked me B = none →
      (handleBlockToggle me B (handleBlockToggle me B db)).chats = db.chats ∧
      (handleBlockToggle me B (handleBlockToggle me B db)).messages =
        db.messages ∧
      (∀ u o, subGet (handleBlockToggle me B
        (handleBlockToggle me B db)).blocked u o = subGet db.blocked u o) ∧
      (∀ cid, visibleChat (handleBlockToggle me B (handleBlockToggle me B db))
        me cid = visibleChat db me cid)) := by
  refine ⟨?_, ?_, ?_, ?_⟩
  · intro hne hnm hblocked
    unfold handleCreateNewChat
    rw [if_neg hne, if_neg hnm]
    by_cases hb1 : (subGet db.blocked me (jsTrim newChatUserId)).isSome = true
    · rw [if_pos hb1]
      exact ⟨rfl, Or.inl rfl⟩
    · have hb2 : (subGet db.blocked (jsTrim newChatUserId) me).isSome = true := by
        rcases hblocked with h | h
        · exact absurd h hb1
        · exact h
      rw [if_neg hb1, if_pos hb2]
      exact ⟨rfl, Or.inr rfl⟩
  · unfold handleBlockToggle
    split
    · exact ⟨rfl, rfl, rfl, rfl⟩
    · exact ⟨rfl, rfl, rfl, rfl⟩
  · intro cid c hnb hc hother
    have hpost : handleBlockToggle me B db =
        { db with blocked := subSet db.blocked me B true } := by
      unfold handleBlockToggle
      rw [if_neg (by simp [hnb])]
    rw [hpost]
    unfold visibleChat
    have hchats : alget ({ db with
        blocked := subSet db.blocked me B true } : DB).chats cid = some c := hc
    simp only [hchats]
    rw [chatOtherParticipant_blocked_irrel, hother]
    simp [subGet_subSet]
  · intro hnb
    have hpost : handleBlockToggle me B db =
        { db with blocked := subSet db.blocked me B true } := by
      unfold handleBlockToggle
      rw [if_neg (by simp [hnb])]
    have hpost2 : handleBlockToggle me B
        ({ db with blocked := subSet db.blocked me B true } : DB) =
        { db with blocked := subRemove (subSet db.blocked me B true) me B } := by
      unfold handleBlockToggle
      rw [if_pos ?_]
      show (subGet (subSet db.blocked me B true) me B).isSome = true
      rw [subGet_subSet]
      simp
    rw [hpost, hpost2]
    have hbl : ∀ u o, subGet (subRemove (subSet db.blocked me B true) me B) u o =
        subGet db.blocked u o := by
      intro u o
      rw [subGet_subRemove, subGet_subSet]
      by_cases h : me = u ∧ B = o
      · obtain ⟨rfl, rfl⟩ := h
        simp [hnb]
      · simp [h]
    refine ⟨rfl, rfl, hbl, ?_⟩
    intro cid
    unfold visibleChat
    cases halget : alget db.chats cid with
    | none =>
        have h2 : alget ({ db with
            blocked := subRemove (subSet db.blocked me B true) me B } : DB).chats
            cid = none := halget
        simp only [halget, h2]
    | some c =>
        have h2 : alget ({ db with
            blocked := subRemove (subSet db.blocked me B true) me B } : DB).chats
            cid = some c := halget
        simp only [halget, h2]
        rw [chatOtherParticipant_blocked_irrel]
        cases hop : chatOtherParticipant db me c with
        | none => rfl
        | some o =>
            simp only [hbl]

/-- C10: sending a message puts, in the one batched write that carries the
encrypted message record, a `lastMessage` write on the conversation record
whose value is the plaintext truncated to its first 40 characters with
"..." appended when longer — a plaintext-derived preview stored outside
the ciphertext; applying the batch leaves that preview (and the fresh
timestamp) on the chat record, with participants and keys untouched. -/
theorem sendMessage_stores_plaintext_preview (aes : AESGCM) (uid : String)
    (dn ph : Option String) (cid mid : String) (chatKey iv : List Nat)
    (newMessage : String) (now : Nat) (db : DB) (c : Chat)
    (hne : jsTrim newMessage ≠ "") (hc : alget db.chats cid = some c) :
    (Upd.messagePut cid mid { uid := uid, displayName := dn, photoURL := ph, encryptedText := (encryptMessage aes newMessage chatKey iv).encrypted, iv := (encryptMessage aes newMessage chatKey iv).iv, timestamp := now } ∈
        sendMessageBatch aes uid dn ph cid mid chatKey iv newMessage now ∧
     Upd.chatLastMessage cid (if newMessage.length > 40 then newMessage.take 40 ++ "..." else newMessage) ∈
        sendMessageBatch aes uid dn ph cid mid chatKey iv newMessage now) ∧
    subGet (handleSubmit aes uid dn ph cid mid chatKey iv newMessage now
        db).messages cid mid = some { uid := uid, displayName := dn, photoURL := ph, encryptedText := (encryptMessage aes newMessage chatKey iv).encrypted, iv := (encryptMessage aes newMessage chatKey iv).iv, timestamp := now } ∧
    (∃ c2, alget (handleSubmit aes uid dn ph cid mid chatKey iv newMessage now
        db).chats cid = some c2 ∧
      c2.lastMessage = some (if newMessage.length > 40 then newMessage.take 40 ++ "..." else newMessage) ∧
      c2.timestamp = now ∧
      c2.keys = c.keys ∧ c2.participants = c.participants) := by
  refine ⟨⟨?_, ?_⟩, ?_, ?_⟩
  · exact List.mem_cons_self _ _
  · exact List.mem_cons_of_mem _ (List.mem_cons_self _ _)
  · unfold handleSubmit
    rw [if_neg hne]
    have hmsg : (applyBatch db (sendMessageBatch aes uid dn ph cid mid chatKey
        iv newMessage now)).messages =
        subSet db.messages cid mid { uid := uid, displayName := dn, photoURL := ph, encryptedText := (encryptMessage aes newMessage chatKey iv).encrypted, iv := (encryptMessage aes newMessage chatKey iv).iv, timestamp := now } := by
      show (modifyChat (modifyChat _ cid _) cid _).messages = _
      rw [modifyChat_messages, modifyChat_messages]
      rfl
    rw [hmsg, subGet_subSet]
    simp
  · unfold handleSubmit
    rw [if_neg hne]
    have h0 : alget (applyUpd db (Upd.messagePut cid mid { uid := uid, displayName := dn, photoURL := ph, encryptedText := (encryptMessage aes newMessage chatKey iv).encrypted, iv := (encryptMessage aes newMessage chatKey iv).iv, timestamp := now })).chats cid = some c := hc
    have h1 := alget_modifyChat_self h0
      (fun c => { c with lastMessage := some (lastMessagePreview newMessage) })
    have h2 := alget_modifyChat_self h1 (fun c => { c with timestamp := now })
    exact ⟨_, h2, rfl, rfl, rfl, rfl⟩

/-- Witness for C10: sending "hello" in the fixture database leaves the
chat record of `c1` holding the plaintext preview "hello". -/
theorem sendMessage_stores_plaintext_preview_witness :
    ∃ c2, alget (handleSubmit tagAESGCM "u1" none none "c1" "m9" [1] [2]
        "hello" 7 leaveFixtureDB).chats "c1" = some c2 ∧
      c2.lastMessage = some (if "hello".length > 40 then "hello".take 40 ++ "..." else "hello") ∧
      c2.timestamp = 7 ∧
      c2.keys = soloFixtureChat.keys ∧
      c2.participants = soloFixtureChat.participants :=
  (sendMessage_stores_plaintext_preview tagAESGCM "u1" none none "c1" "m9"
    [1] [2] "hello" 7 leaveFixtureDB soloFixtureChat (by decide) rfl).2.2

end Privox
